import Mathlib

/-!
Verification of the camera motion-block engine of the spark-splat repository.

The definitions below are shallow embeddings of the TypeScript sources
(`src/components/motion/motionBlocks.ts`, `src/components/motion/MotionSequencer.tsx`
and the zustand motion store).  Floating-point numbers are modelled as real
numbers; JavaScript's `%` remainder (truncated division) is modelled
explicitly.
-/

noncomputable section

namespace SparkSplat

/-- Truncation toward zero, as performed implicitly by the JavaScript `%`
remainder operator on finite doubles. -/
def jsTrunc (x : ℝ) : ℤ := if 0 ≤ x then ⌊x⌋ else ⌈x⌉

/-- JavaScript's `%` operator on real numbers: the remainder of truncated
division, carrying the sign of the dividend. -/
def jsRem (a b : ℝ) : ℝ := a - b * (jsTrunc (a / b) : ℤ)

/-- Shallow embedding of `getShortestAngle` from `motionBlocks.ts`:
`diff = ((end - start) % twoPi + twoPi) % twoPi`, shifted by `-twoPi` when it
exceeds `π`, and added back onto `start`. -/
def getShortestAngle (start endAngle : ℝ) : ℝ :=
  let twoPi := Real.pi * 2
  let diff := jsRem (jsRem (endAngle - start) twoPi + twoPi) twoPi
  let diff2 := if diff > Real.pi then diff - twoPi else diff
  start + diff2

lemma jsTrunc_dist (x : ℝ) : -1 < x - (jsTrunc x : ℤ) ∧ x - (jsTrunc x : ℤ) < 1 := by
  unfold jsTrunc
  by_cases h : 0 ≤ x
  · rw [if_pos h]
    constructor
    · have := Int.floor_le x
      linarith
    · have := Int.lt_floor_add_one x
      linarith
  · rw [if_neg h]
    constructor
    · have := Int.ceil_lt_add_one x
      linarith
    · have := Int.le_ceil x
      linarith

lemma jsRem_bounds (a b : ℝ) (hb : 0 < b) : -b < jsRem a b ∧ jsRem a b < b := by
  have hd := jsTrunc_dist (a / b)
  have hrepr : jsRem a b = b * (a / b - (jsTrunc (a / b) : ℤ)) := by
    unfold jsRem
    field_simp
  constructor
  · rw [hrepr]
    nlinarith [hd.1]
  · rw [hrepr]
    nlinarith [hd.2]

lemma jsRem_congruent (a b : ℝ) : ∃ k : ℤ, jsRem a b = a - b * k :=
  ⟨jsTrunc (a / b), rfl⟩

lemma jsTrunc_of_Ico (x : ℝ) (h0 : 0 ≤ x) (h1 : x < 1) : jsTrunc x = 0 := by
  unfold jsTrunc
  rw [if_pos h0]
  exact Int.floor_eq_zero_iff.mpr ⟨h0, h1⟩

lemma jsTrunc_of_Ico_one (x : ℝ) (h0 : 1 ≤ x) (h1 : x < 2) : jsTrunc x = 1 := by
  unfold jsTrunc
  rw [if_pos (by linarith)]
  rw [Int.floor_eq_iff]
  constructor
  · push_cast
    linarith
  · push_cast
    linarith

lemma jsRem_small (c b : ℝ) (hb : 0 < b) (h0 : 0 ≤ c) (h1 : c < b) :
    jsRem c b = c := by
  unfold jsRem
  rw [jsTrunc_of_Ico (c / b) (div_nonneg h0 hb.le) (by rw [div_lt_one hb]; exact h1)]
  simp

lemma jsRem_wrap (c b : ℝ) (hb : 0 < b) (h0 : b ≤ c) (h1 : c < 2 * b) :
    jsRem c b = c - b := by
  unfold jsRem
  rw [jsTrunc_of_Ico_one (c / b) ((one_le_div hb).mpr h0)
    (by rw [div_lt_iff hb]; linarith)]
  push_cast
  ring

/-- Normalisation core of `getShortestAngle`: the doubly-reduced difference
lies in `[0, b)` and is congruent to the raw difference modulo `b`. -/
lemma jsRem_double (a b : ℝ) (hb : 0 < b) :
    (0 ≤ jsRem (jsRem a b + b) b ∧ jsRem (jsRem a b + b) b < b) ∧
      ∃ k : ℤ, jsRem (jsRem a b + b) b = a - b * k := by
  obtain ⟨hlo, hhi⟩ := jsRem_bounds a b hb
  obtain ⟨k1, hk1⟩ := jsRem_congruent a b
  by_cases hcase : jsRem a b + b < b
  · have h0 : 0 ≤ jsRem a b + b := by linarith
    rw [jsRem_small _ b hb h0 hcase]
    refine ⟨⟨h0, hcase⟩, ⟨k1 - 1, ?_⟩⟩
    push_cast
    linarith [hk1]
  · push_neg at hcase
    have h2 : jsRem a b + b < 2 * b := by linarith
    rw [jsRem_wrap _ b hb hcase h2]
    refine ⟨⟨by linarith, by linarith⟩, ⟨k1, ?_⟩⟩
    linarith [hk1]

/-- Unfolded form of `getShortestAngle` in terms of the doubly-reduced
difference. -/
lemma getShortestAngle_eq (s e : ℝ) :
    getShortestAngle s e =
      s + (if jsRem (jsRem (e - s) (Real.pi * 2) + Real.pi * 2) (Real.pi * 2) > Real.pi
        then jsRem (jsRem (e - s) (Real.pi * 2) + Real.pi * 2) (Real.pi * 2) - Real.pi * 2
        else jsRem (jsRem (e - s) (Real.pi * 2) + Real.pi * 2) (Real.pi * 2)) := rfl

lemma getShortestAngle_spec (s e : ℝ) :
    (∃ k : ℤ, getShortestAngle s e - s = (e - s) + (Real.pi * 2) * k) ∧
      -Real.pi < getShortestAngle s e - s ∧ getShortestAngle s e - s ≤ Real.pi := by
  have hb : (0 : ℝ) < Real.pi * 2 := by positivity
  obtain ⟨⟨h0, h1⟩, k, hk⟩ := jsRem_double (e - s) (Real.pi * 2) hb
  rw [getShortestAngle_eq]
  set d := jsRem (jsRem (e - s) (Real.pi * 2) + Real.pi * 2) (Real.pi * 2) with hd
  by_cases hgt : d > Real.pi
  · rw [if_pos hgt]
    refine ⟨⟨-k - 1, ?_⟩, by linarith, by linarith⟩
    push_cast
    linarith [hk]
  · rw [if_neg hgt]
    push_neg at hgt
    refine ⟨⟨-k, ?_⟩, by linarith, by linarith⟩
    push_cast
    linarith [hk]

/-- Evaluation of the helper on the spec's wraparound test case:
341° to 19° rotates forward by +38°. -/
lemma getShortestAngle_341_19 :
    getShortestAngle (341 * Real.pi / 180) (19 * Real.pi / 180) =
      341 * Real.pi / 180 + 38 * Real.pi / 180 := by
  have hpi := Real.pi_pos
  have hb : (0 : ℝ) < Real.pi * 2 := by positivity
  have hfirst : jsRem (19 * Real.pi / 180 - 341 * Real.pi / 180) (Real.pi * 2) =
      19 * Real.pi / 180 - 341 * Real.pi / 180 := by
    unfold jsRem
    have hdiv : (19 * Real.pi / 180 - 341 * Real.pi / 180) / (Real.pi * 2) =
        -161 / 180 := by
      field_simp
      ring
    rw [hdiv]
    have : jsTrunc (-161 / 180 : ℝ) = 0 := by
      unfold jsTrunc
      rw [if_neg (by norm_num)]
      rw [Int.ceil_eq_zero_iff]
      constructor <;> norm_num
    rw [this]
    push_cast
    ring
  rw [getShortestAngle_eq, hfirst]
  have hsecond : jsRem (19 * Real.pi / 180 - 341 * Real.pi / 180 + Real.pi * 2)
      (Real.pi * 2) = 38 * Real.pi / 180 := by
    have harg : 19 * Real.pi / 180 - 341 * Real.pi / 180 + Real.pi * 2 =
        38 * Real.pi / 180 := by ring
    rw [harg]
    exact jsRem_small _ _ hb (by positivity) (by nlinarith)
  rw [hsecond, if_neg (by push_neg; nlinarith)]

/-- Evaluation of the helper on the exact-180° tie: the rotation is `+π`. -/
lemma getShortestAngle_tie (s : ℝ) :
    getShortestAngle s (s + Real.pi) = s + Real.pi := by
  have hpi := Real.pi_pos
  have hb : (0 : ℝ) < Real.pi * 2 := by positivity
  have hfirst : jsRem (s + Real.pi - s) (Real.pi * 2) = Real.pi := by
    have harg : s + Real.pi - s = Real.pi := by ring
    rw [harg]
    exact jsRem_small _ _ hb hpi.le (by nlinarith)
  rw [getShortestAngle_eq, hfirst]
  have hsecond : jsRem (Real.pi + Real.pi * 2) (Real.pi * 2) = Real.pi := by
    rw [jsRem_wrap _ _ hb (by nlinarith) (by nlinarith)]
    ring
  rw [hsecond, if_neg (lt_irrefl Real.pi)]

/-- C1: `getShortestAngle(start, end)` returns `start + d` with `d` congruent
to `end - start` modulo `2π` and `d ∈ (-π, π]`; the wraparound case
`341° → 19°` yields `start + 38°` and the exact-180° case ties to `+π`. -/
theorem C1_shortest_angle (s e : ℝ) :
    (∃ k : ℤ, getShortestAngle s e - s = (e - s) + (Real.pi * 2) * k) ∧
      (-Real.pi < getShortestAngle s e - s ∧ getShortestAngle s e - s ≤ Real.pi) ∧
      getShortestAngle (341 * Real.pi / 180) (19 * Real.pi / 180) =
        341 * Real.pi / 180 + 38 * Real.pi / 180 ∧
      getShortestAngle s (s + Real.pi) = s + Real.pi := by
  obtain ⟨hc, hlo, hhi⟩ := getShortestAngle_spec s e
  exact ⟨hc, ⟨hlo, hhi⟩, getShortestAngle_341_19, getShortestAngle_tie s⟩

/-- Three-component vector, as `THREE.Vector3`. -/
structure Vec3 where
  x : ℝ
  y : ℝ
  z : ℝ

/-- Componentwise vector addition, as `Vector3.add`. -/
def Vec3.add (a b : Vec3) : Vec3 := ⟨a.x + b.x, a.y + b.y, a.z + b.z⟩

/-- Componentwise vector subtraction, as `Vector3.sub` / `subVectors`. -/
def Vec3.sub (a b : Vec3) : Vec3 := ⟨a.x - b.x, a.y - b.y, a.z - b.z⟩

/-- Scalar multiplication, as `Vector3.multiplyScalar`. -/
def Vec3.smul (a : Vec3) (r : ℝ) : Vec3 := ⟨a.x * r, a.y * r, a.z * r⟩

/-- Squared distance between two points, as `Vector3.distanceToSquared`. -/
def Vec3.distToSq (a b : Vec3) : ℝ :=
  (a.x - b.x) * (a.x - b.x) + (a.y - b.y) * (a.y - b.y) + (a.z - b.z) * (a.z - b.z)

/-- Euclidean norm, as `Vector3.length`. -/
def Vec3.norm (v : Vec3) : ℝ := Real.sqrt (v.x * v.x + v.y * v.y + v.z * v.z)

/-- Normalisation, as `Vector3.normalize` (`divideScalar(length || 1)`: a
zero-length vector is divided by `1`, i.e. left unchanged). -/
def Vec3.normalize (v : Vec3) : Vec3 :=
  let m := v.norm
  let m := if m = 0 then 1 else m
  v.smul (1 / m)

/-- Quaternion, as `THREE.Quaternion`. -/
structure Quat where
  qx : ℝ
  qy : ℝ
  qz : ℝ
  qw : ℝ

/-- Quaternion from an axis and an angle, as `Quaternion.setFromAxisAngle`
(the axis is assumed normalised, as in three.js). -/
def quatFromAxisAngle (axis : Vec3) (angle : ℝ) : Quat :=
  let halfAngle := angle / 2
  let s := Real.sin halfAngle
  ⟨axis.x * s, axis.y * s, axis.z * s, Real.cos halfAngle⟩

/-- Rotation of a vector by a quaternion, as `Vector3.applyQuaternion`:
`t = 2·(q.xyz × v)`, result `v + q.w·t + q.xyz × t`. -/
def Vec3.applyQuaternion (v : Vec3) (q : Quat) : Vec3 :=
  let tx := 2 * (q.qy * v.z - q.qz * v.y)
  let ty := 2 * (q.qz * v.x - q.qx * v.z)
  let tz := 2 * (q.qx * v.y - q.qy * v.x)
  ⟨v.x + q.qw * tx + q.qy * tz - q.qz * ty,
   v.y + q.qw * ty + q.qz * tx - q.qx * tz,
   v.z + q.qw * tz + q.qx * ty - q.qy * tx⟩

/-- Rotation of a vector about an axis, as `Vector3.applyAxisAngle`. -/
def Vec3.applyAxisAngle (v axis : Vec3) (angle : ℝ) : Vec3 :=
  v.applyQuaternion (quatFromAxisAngle axis angle)

/-- Application of `Matrix4.makeRotationAxis(axis, angle)` to a point via
`Vector3.applyMatrix4` (the matrix has no translation and `w = 1`). -/
def rotateAboutAxis (axis : Vec3) (angle : ℝ) (v : Vec3) : Vec3 :=
  let c := Real.cos angle
  let s := Real.sin angle
  let t := 1 - c
  let x := axis.x
  let y := axis.y
  let z := axis.z
  let tx := t * x
  let ty := t * y
  ⟨(tx * x + c) * v.x + (tx * y - s * z) * v.y + (tx * z + s * y) * v.z,
   (tx * y + s * z) * v.x + (ty * y + c) * v.y + (ty * z - s * x) * v.z,
   (tx * z - s * y) * v.x + (ty * z + s * x) * v.y + (t * z * z + c) * v.z⟩

lemma rotateAboutAxis_zero (axis v : Vec3) : rotateAboutAxis axis 0 v = v := by
  unfold rotateAboutAxis
  simp only [Real.cos_zero, Real.sin_zero]
  cases v
  simp

lemma applyAxisAngle_zero (v axis : Vec3) : v.applyAxisAngle axis 0 = v := by
  unfold Vec3.applyAxisAngle Vec3.applyQuaternion quatFromAxisAngle
  simp only [zero_div, Real.sin_zero, Real.cos_zero]
  cases v
  simp

/-- Abstract state of the camera rig adapter (`CameraControls` plus the
underlying camera), holding exactly the properties the motion blocks read and
write.  `truckX`/`truckY` accumulate the view-plane translation requested via
the adapter's relative `truck(dx, dy)` primitive. -/
structure RigState where
  azimuthAngle : ℝ
  polarAngle : ℝ
  distance : ℝ
  target : Vec3
  position : Vec3
  fov : ℝ
  up : Vec3
  forward : Vec3
  truckX : ℝ
  truckY : ℝ
  isPerspective : Bool

/-- Adapter operation `controls.dollyTo(d, false)`. -/
def RigState.dollyTo (s : RigState) (d : ℝ) : RigState := { s with distance := d }

/-- Adapter operation `controls.setTarget(x, y, z, false)`. -/
def RigState.setTarget (s : RigState) (t : Vec3) : RigState := { s with target := t }

/-- Adapter operation `controls.setLookAt(pos, tgt, false)`. -/
def RigState.setLookAt (s : RigState) (pos tgt : Vec3) : RigState :=
  { s with position := pos, target := tgt }

/-- Adapter operation `controls.truck(dx, dy, false)`: relative view-plane
translation. -/
def RigState.truck (s : RigState) (dx dy : ℝ) : RigState :=
  { s with truckX := s.truckX + dx, truckY := s.truckY + dy }

/-- Direct write of `controls.camera.up`. -/
def RigState.setUp (s : RigState) (u : Vec3) : RigState := { s with up := u }

/-- Optional camera-state snapshot, the shape of both `startState` and
`endState` in `MotionBlockOptions`. -/
structure CameraState where
  azimuth : Option ℝ := none
  polar : Option ℝ := none
  distance : Option ℝ := none
  center : Option Vec3 := none
  fov : Option ℝ := none
  roll : Option ℝ := none

/-- Legacy `to` destination of the moveTo block. -/
structure ToTarget where
  azimuth : Option ℝ := none
  polar : Option ℝ := none
  distance : Option ℝ := none
  target : Option Vec3 := none

/-- Composite-block rotation amounts. -/
structure RotateSpec where
  azimuth : Option ℝ := none
  polar : Option ℝ := none

/-- Composite-block translation amounts. -/
structure TruckSpec where
  x : Option ℝ := none
  y : Option ℝ := none

/-- Bezier-curve sub-configuration of `MotionBlockOptions`. -/
structure BezierCurveConfig where
  controlPoints : Option (List Vec3) := none
  lookAtTarget : Option Vec3 := none
  maintainOrientation : Option Bool := none

/-- The unified block configuration interface `MotionBlockOptions` (the fields
the motion factories read; the source field `to` is called `toDest` here since
`to` is a reserved word in Lean). -/
structure MotionBlockOptions where
  duration : Option ℝ := none
  distanceDelta : Option ℝ := none
  angleDelta : Option ℝ := none
  panAmount : Option ℝ := none
  truckAmount : Option ℝ := none
  truckX : Option ℝ := none
  truckY : Option ℝ := none
  arcAngle : Option ℝ := none
  zoomFov : Option ℝ := none
  toDest : Option ToTarget := none
  rotate : Option RotateSpec := none
  dolly : Option ℝ := none
  truck : Option TruckSpec := none
  startState : Option CameraState := none
  endState : Option CameraState := none
  bezierCurve : Option BezierCurveConfig := none

/-- Helper `applyStartState` from `motionBlocks.ts`: synchronously snaps the
rig to the optional forced start state, field by field in source order. -/
def applyStartState (s : RigState) (st : Option CameraState) : RigState :=
  match st with
  | none => s
  | some st =>
    let s := match st.azimuth with
      | some a => { s with azimuthAngle := a }
      | none => s
    let s := match st.polar with
      | some q => { s with polarAngle := q }
      | none => s
    let s := match st.distance with
      | some d => s.dollyTo d
      | none => s
    let s := match st.center with
      | some c => s.setTarget c
      | none => s
    let s := match st.roll with
      | some r => s.setUp (rotateAboutAxis s.forward r s.up)
      | none => s
    let s := match st.fov with
      | some f => if s.isPerspective then { s with fov := f } else s
      | none => s
    s

/-- Start hook of `createDollyBlock`: applies the forced start state and
captures `controls.distance`. -/
def dollyOnStart (opts : MotionBlockOptions) (s : RigState) : RigState × ℝ :=
  let s := applyStartState s opts.startState
  (s, s.distance)

/-- Update hook of `createDollyBlock` at eased progress `p`:
`controls.dollyTo(startDistance + delta * p, false)`. -/
def dollyOnUpdate (opts : MotionBlockOptions) (radius : ℝ) (startDistance : ℝ)
    (p : ℝ) (s : RigState) : RigState :=
  let delta := opts.distanceDelta.getD (radius * 0.5)
  s.dollyTo (startDistance + delta * p)

/-- Start hook of `createPanBlock`: captures position, target and the forward
view vector `target - position`. -/
def panOnStart (opts : MotionBlockOptions) (s : RigState) :
    RigState × Vec3 × Vec3 × Vec3 :=
  let s := applyStartState s opts.startState
  (s, s.position, s.target, s.target.sub s.position)

/-- Update hook of `createPanBlock`: rotates the captured view vector about
world up by `angle * p` and re-applies a look-at with the camera position
fixed. -/
def panOnUpdate (opts : MotionBlockOptions) (startPos forwardVec : Vec3)
    (p : ℝ) (s : RigState) : RigState :=
  let angle := opts.angleDelta.getD (Real.pi / 4)
  let currentVec := forwardVec.applyAxisAngle ⟨0, 1, 0⟩ (angle * p)
  let newTarget := startPos.add currentVec
  s.setLookAt startPos newTarget

/-- Horizontal truck amount of `createTruckBlock`:
`opts.truckX ?? opts.truckAmount ?? radius * 0.5`. -/
def truckBlockAmount (opts : MotionBlockOptions) (radius : ℝ) : ℝ :=
  (opts.truckX.or opts.truckAmount).getD (radius * 0.5)

/-- Update hook of `createTruckBlock` as a transition on
`(lastProgress, rig)`: `controls.truck(amount * (p - lastProgress), 0, false)`
followed by `lastProgress = p`. -/
def truckOnUpdate (amount : ℝ) (st : ℝ × RigState) (p : ℝ) : ℝ × RigState :=
  let lastProgress := st.1
  let deltaProgress := p - lastProgress
  (p, st.2.truck (amount * deltaProgress) 0)

/-- The truck block's per-run tick sequence: `onStart` resets
`lastProgress = 0`, then the update hook fires once per eased progress
value. -/
def truckRun (opts : MotionBlockOptions) (radius : ℝ) (s : RigState)
    (ps : List ℝ) : ℝ × RigState :=
  let s := applyStartState s opts.startState
  ps.foldl (truckOnUpdate (truckBlockAmount opts radius)) (0, s)

/-- Start hook of `createTiltBlock`: captures `controls.polarAngle`. -/
def tiltOnStart (opts : MotionBlockOptions) (s : RigState) : RigState × ℝ :=
  let s := applyStartState s opts.startState
  (s, s.polarAngle)

/-- Update hook of `createTiltBlock`: `polarAngle = startAngle + angle * p`. -/
def tiltOnUpdate (opts : MotionBlockOptions) (startAngle : ℝ) (p : ℝ)
    (s : RigState) : RigState :=
  let angle := opts.angleDelta.getD (Real.pi / 6)
  { s with polarAngle := startAngle + angle * p }

/-- Vertical truck amount of `createPedestalBlock`:
`opts.truckY ?? radius * 0.5`. -/
def pedestalAmount (opts : MotionBlockOptions) (radius : ℝ) : ℝ :=
  opts.truckY.getD (radius * 0.5)

/-- Update hook of `createPedestalBlock` as a transition on
`(lastProgress, rig)`: `controls.truck(0, yAmount * (p - lastProgress),
false)`. -/
def pedestalOnUpdate (yAmount : ℝ) (st : ℝ × RigState) (p : ℝ) : ℝ × RigState :=
  let lastProgress := st.1
  let deltaProgress := p - lastProgress
  (p, st.2.truck 0 (yAmount * deltaProgress))

/-- The pedestal block's per-run tick sequence. -/
def pedestalRun (opts : MotionBlockOptions) (radius : ℝ) (s : RigState)
    (ps : List ℝ) : ℝ × RigState :=
  let s := applyStartState s opts.startState
  ps.foldl (pedestalOnUpdate (pedestalAmount opts radius)) (0, s)

/-- Start hook of `createRollBlock`: captures `camera.up` and the world
forward direction. -/
def rollOnStart (opts : MotionBlockOptions) (s : RigState) :
    RigState × Vec3 × Vec3 :=
  let s := applyStartState s opts.startState
  (s, s.up, s.forward)

/-- Update hook of `createRollBlock`: rotates the captured up vector about the
captured forward axis by `angle * p`. -/
def rollOnUpdate (opts : MotionBlockOptions) (startUp forward : Vec3) (p : ℝ)
    (s : RigState) : RigState :=
  let angle := opts.angleDelta.getD (Real.pi / 6)
  let currentRoll := angle * p
  s.setUp (rotateAboutAxis forward currentRoll startUp)

/-- Start hook of `createZoomBlock`: captures the FOV when the camera is a
perspective camera, keeping the factory's initial `50` otherwise. -/
def zoomOnStart (opts : MotionBlockOptions) (s : RigState) : RigState × ℝ :=
  let s := applyStartState s opts.startState
  (s, if s.isPerspective then s.fov else 50)

/-- Update hook of `createZoomBlock`: linear FOV interpolation, skipped for a
non-perspective camera. -/
def zoomOnUpdate (opts : MotionBlockOptions) (startFov : ℝ) (p : ℝ)
    (s : RigState) : RigState :=
  let targetFov := opts.zoomFov.getD 20
  if s.isPerspective then { s with fov := startFov + (targetFov - startFov) * p }
  else s

/-- Start hook of `createDollyZoomBlock`: captures the FOV (initial `45` when
not perspective) and `controls.distance`. -/
def dollyZoomOnStart (opts : MotionBlockOptions) (s : RigState) :
    RigState × ℝ × ℝ :=
  let s := applyStartState s opts.startState
  ((s, if s.isPerspective then s.fov else 45, s.distance) : RigState × ℝ × ℝ)

/-- Update hook of `createDollyZoomBlock`: interpolates the FOV and recomputes
the compensating distance
`startDist * tan(startFov·π/360) / tan(currentFov·π/360)` each tick. -/
def dollyZoomOnUpdate (opts : MotionBlockOptions) (startFov startDist : ℝ)
    (p : ℝ) (s : RigState) : RigState :=
  let targetFov := opts.zoomFov.getD 10
  if s.isPerspective then
    let currentFov := startFov + (targetFov - startFov) * p
    let rad1 := startFov * Real.pi / 360
    let rad2 := currentFov * Real.pi / 360
    let newDist := startDist * (Real.tan rad1 / Real.tan rad2)
    ({ s with fov := currentFov }).dollyTo newDist
  else s

/-- Start hook of `createArcBlock`: captures azimuth and distance. -/
def arcOnStart (opts : MotionBlockOptions) (s : RigState) : RigState × ℝ × ℝ :=
  let s := applyStartState s opts.startState
  ((s, s.azimuthAngle, s.distance) : RigState × ℝ × ℝ)

/-- Update hook of `createArcBlock`: simultaneous absolute azimuth rotation
and distance change. -/
def arcOnUpdate (opts : MotionBlockOptions) (radius : ℝ)
    (startAngle startDistance : ℝ) (p : ℝ) (s : RigState) : RigState :=
  let angle := opts.arcAngle.getD (Real.pi / 2)
  let delta := opts.distanceDelta.getD (radius * 0.3)
  let s := { s with azimuthAngle := startAngle + angle * p }
  s.dollyTo (startDistance + delta * p)

/-- Captured start state of `createCompositeBlock`. -/
structure CompositeStart where
  azimuth : ℝ
  polar : ℝ
  distance : ℝ

/-- Start hook of `createCompositeBlock`: captures azimuth, polar and distance
and resets `lastProgress`. -/
def compositeOnStart (opts : MotionBlockOptions) (s : RigState) :
    RigState × CompositeStart :=
  let s := applyStartState s opts.startState
  (s, ⟨s.azimuthAngle, s.polarAngle, s.distance⟩)

/-- Update hook of `createCompositeBlock` as a transition on
`(lastProgress, rig)`: absolute rotate and dolly writes followed by an
incremental truck write. -/
def compositeOnUpdate (opts : MotionBlockOptions) (cap : CompositeStart)
    (st : ℝ × RigState) (p : ℝ) : ℝ × RigState :=
  let lastProgress := st.1
  let deltaProgress := p - lastProgress
  let s := st.2
  let s := match opts.rotate with
    | some r =>
      let s := match r.azimuth with
        | some a => { s with azimuthAngle := cap.azimuth + a * p }
        | none => s
      match r.polar with
      | some q => { s with polarAngle := cap.polar + q * p }
      | none => s
    | none => s
  let s := match opts.dolly with
    | some d => s.dollyTo (cap.distance + d * p)
    | none => s
  let s := match opts.truck with
    | some t =>
      let tx := (t.x.getD 0) * deltaProgress
      let ty := (t.y.getD 0) * deltaProgress
      if tx ≠ 0 ∨ ty ≠ 0 then s.truck tx ty else s
    | none => s
  (p, s)

/-- The composite block's per-run tick sequence. -/
def compositeRun (opts : MotionBlockOptions) (s : RigState) (ps : List ℝ) :
    ℝ × RigState :=
  let sc := compositeOnStart opts s
  ps.foldl (compositeOnUpdate opts sc.2) (0, sc.1)

/-- Full camera state captured (`start`) or resolved (`end`) by
`createMoveToBlock`. -/
structure MoveToState where
  az : ℝ
  pol : ℝ
  dist : ℝ
  tx : ℝ
  ty : ℝ
  tz : ℝ
  fov : ℝ
  roll : ℝ

/-- The `start` record `createMoveToBlock` captures (with `start.roll = 0`
and `start.fov` left at the initial `50` on a non-perspective camera). -/
def moveToStartCapture (s : RigState) : MoveToState :=
  { az := s.azimuthAngle, pol := s.polarAngle, dist := s.distance,
    tx := s.target.x, ty := s.target.y, tz := s.target.z,
    fov := if s.isPerspective then s.fov else 50, roll := 0 }

/-- The resolved end center of `createMoveToBlock`: `endState.center`, else
the legacy `to.target`, else the captured start center. -/
def moveToEndCenter (opts : MotionBlockOptions) (startSt : MoveToState) :
    Vec3 :=
  match (opts.endState.getD {}).center with
  | some c => c
  | none =>
    match opts.toDest.bind ToTarget.target with
    | some c => c
    | none => ⟨startSt.tx, startSt.ty, startSt.tz⟩

/-- The `end` record `createMoveToBlock` resolves in its start hook:
`endState` fields first, the legacy `to` fields next, the captured start
values last; the end azimuth goes through `getShortestAngle`. -/
def moveToEndResolve (opts : MotionBlockOptions) (isPersp : Bool)
    (startSt : MoveToState) : MoveToState :=
  let endState := opts.endState.getD {}
  let targetAz :=
    (endState.azimuth.or (opts.toDest.bind ToTarget.azimuth)).getD startSt.az
  { az := getShortestAngle startSt.az targetAz,
    pol := (endState.polar.or (opts.toDest.bind ToTarget.polar)).getD startSt.pol,
    dist := (endState.distance.or (opts.toDest.bind ToTarget.distance)).getD
      startSt.dist,
    tx := (moveToEndCenter opts startSt).x,
    ty := (moveToEndCenter opts startSt).y,
    tz := (moveToEndCenter opts startSt).z,
    fov :=
      match endState.fov with
      | some f => if isPersp then f else startSt.fov
      | none => startSt.fov,
    roll := endState.roll.getD startSt.roll }

/-- Start hook of `createMoveToBlock`: applies the forced start state,
captures `start`, and resolves `end`. -/
def moveToOnStart (opts : MotionBlockOptions) (s : RigState) :
    RigState × MoveToState × MoveToState :=
  let s := applyStartState s opts.startState
  (s, moveToStartCapture s,
    moveToEndResolve opts s.isPerspective (moveToStartCapture s))

/-- Update hook of `createMoveToBlock`: linear interpolation of every camera
property, with the FOV write gated on a perspective camera and the roll write
gated on `end.roll ≠ start.roll`. -/
def moveToOnUpdate (startSt endSt : MoveToState) (p : ℝ) (s : RigState) :
    RigState :=
  let s := { s with azimuthAngle := startSt.az + (endSt.az - startSt.az) * p }
  let s := { s with polarAngle := startSt.pol + (endSt.pol - startSt.pol) * p }
  let s := s.dollyTo (startSt.dist + (endSt.dist - startSt.dist) * p)
  let s := s.setTarget ⟨startSt.tx + (endSt.tx - startSt.tx) * p,
    startSt.ty + (endSt.ty - startSt.ty) * p,
    startSt.tz + (endSt.tz - startSt.tz) * p⟩
  let s := if s.isPerspective then
      { s with fov := startSt.fov + (endSt.fov - startSt.fov) * p }
    else s
  if endSt.roll ≠ startSt.roll then
    s.setUp (rotateAboutAxis s.forward
      (startSt.roll + (endSt.roll - startSt.roll) * p) ⟨0, 1, 0⟩)
  else s

/-- Bounds-checked list indexing with an integer index, as JavaScript array
subscripting (out-of-range access, which three.js never performs on the code
paths modelled here, yields a junk value). -/
def vget (points : List Vec3) (i : ℤ) : Vec3 :=
  if h : 0 ≤ i ∧ i.toNat < points.length then points.get ⟨i.toNat, h.2⟩
  else ⟨0, 0, 0⟩

/-- Coefficients of three.js's `CubicPoly`. -/
structure CubicPoly where
  c0 : ℝ
  c1 : ℝ
  c2 : ℝ
  c3 : ℝ

/-- `CubicPoly.init(x0, x1, t0, t1)`. -/
def cubicInit (x0 x1 t0 t1 : ℝ) : CubicPoly :=
  ⟨x0, t0, -3 * x0 + 3 * x1 - 2 * t0 - t1, 2 * x0 - 2 * x1 + t0 + t1⟩

/-- `CubicPoly.initNonuniformCatmullRom(x0, x1, x2, x3, dt0, dt1, dt2)`. -/
def cubicNonuniform (x0 x1 x2 x3 dt0 dt1 dt2 : ℝ) : CubicPoly :=
  let t1 := ((x1 - x0) / dt0 - (x2 - x0) / (dt0 + dt1) + (x2 - x1) / dt1) * dt1
  let t2 := ((x2 - x1) / dt1 - (x3 - x1) / (dt1 + dt2) + (x3 - x2) / dt2) * dt1
  cubicInit x1 x2 t1 t2

/-- `CubicPoly.calc(t)`. -/
def cubicCalc (c : CubicPoly) (t : ℝ) : ℝ :=
  c.c0 + c.c1 * t + c.c2 * t * t + c.c3 * t * t * t

/-- Index and local weight `CatmullRomCurve3.getPoint` derives from the curve
parameter: `p = (l - 1)·t`, `intPoint = ⌊p⌋`, `weight = p - intPoint`, with
the non-closed end correction to `(l - 2, 1)` when the weight vanishes at the
last point. -/
def catmullSetup (l : ℤ) (t : ℝ) : ℤ × ℝ :=
  let p : ℝ := ((l : ℝ) - 1) * t
  let ip0 : ℤ := ⌊p⌋
  let w0 : ℝ := p - (ip0 : ℝ)
  if w0 = 0 ∧ ip0 = l - 1 then (l - 2, 1) else (ip0, w0)

/-- Segment evaluation of `CatmullRomCurve3.getPoint` at local index `ip` and
weight `w`: control-point selection (with reflected virtual endpoints),
centripetal knot spacing with the `1e-4` degenerate-knot fallbacks, and the
cubic evaluation. -/
def catmullEval (points : List Vec3) (ip : ℤ) (w : ℝ) : Vec3 :=
  let l : ℤ := points.length
  let p0 : Vec3 :=
    if ip > 0 then vget points ((ip - 1) % l)
    else ((vget points 0).sub (vget points 1)).add (vget points 0)
  let p1 := vget points (ip % l)
  let p2 := vget points ((ip + 1) % l)
  let p3 : Vec3 :=
    if ip + 2 < l then vget points ((ip + 2) % l)
    else ((vget points (l - 1)).sub (vget points (l - 2))).add
      (vget points (l - 1))
  let dt0' := (p0.distToSq p1) ^ (0.25 : ℝ)
  let dt1' := (p1.distToSq p2) ^ (0.25 : ℝ)
  let dt2' := (p2.distToSq p3) ^ (0.25 : ℝ)
  let dt1 := if dt1' < 0.0001 then 1 else dt1'
  let dt0 := if dt0' < 0.0001 then dt1 else dt0'
  let dt2 := if dt2' < 0.0001 then dt1 else dt2'
  let px := cubicNonuniform p0.x p1.x p2.x p3.x dt0 dt1 dt2
  let py := cubicNonuniform p0.y p1.y p2.y p3.y dt0 dt1 dt2
  let pz := cubicNonuniform p0.z p1.z p2.z p3.z dt0 dt1 dt2
  ⟨cubicCalc px w, cubicCalc py w, cubicCalc pz w⟩

/-- `THREE.CatmullRomCurve3.getPoint(t)` for a non-closed centripetal curve
(the only configuration the bezier block constructs):
`new CatmullRomCurve3(controlPoints, false, 'centripetal')`. -/
def catmullRomPoint (points : List Vec3) (t : ℝ) : Vec3 :=
  let iw := catmullSetup points.length t
  catmullEval points iw.1 iw.2

/-- `Curve.getTangent(t)` (the default implementation CatmullRomCurve3
inherits): central difference with step `0.0001`, clamped to `[0, 1]`,
normalised. -/
def catmullRomTangent (points : List Vec3) (t : ℝ) : Vec3 :=
  let delta : ℝ := 0.0001
  let t1 := t - delta
  let t2 := t + delta
  let t1 := if t1 < 0 then 0 else t1
  let t2 := if t2 > 1 then 1 else t2
  ((catmullRomPoint points t2).sub (catmullRomPoint points t1)).normalize

/-- Default control points of `createBezierCurveBlock` when the configuration
supplies none (or fewer than two). -/
def bezierDefaultPoints (currentPos : Vec3) : List Vec3 :=
  [currentPos,
   currentPos.add ⟨2, 0, 0⟩,
   currentPos.add ⟨4, 2, 0⟩,
   currentPos.add ⟨6, 0, 0⟩]

/-- Values the bezier block's `onStart` closure computes. -/
structure BezierStart where
  controlPoints : List Vec3
  lookAtTarget : Option Vec3
  maintainOrientation : Bool
  initialForward : Option Vec3
  initialUp : Option Vec3

/-- Start hook of `createBezierCurveBlock` (reached only when a `bezierCurve`
configuration object is present). -/
def bezierOnStart (cfg : BezierCurveConfig) (s : RigState) : BezierStart :=
  let currentPos := s.position
  let controlPoints :=
    match cfg.controlPoints with
    | some pts => if 2 ≤ pts.length then pts else bezierDefaultPoints currentPos
    | none => bezierDefaultPoints currentPos
  let lookAtTarget : Option Vec3 :=
    match cfg.lookAtTarget with
    | some tgt =>
      if tgt.x ≠ 0 ∨ tgt.y ≠ 0 ∨ tgt.z ≠ 0 then some tgt else some ⟨0, 0, 0⟩
    | none => none
  let maintainOrientation := cfg.maintainOrientation.getD false
  { controlPoints := controlPoints,
    lookAtTarget := lookAtTarget,
    maintainOrientation := maintainOrientation,
    initialForward := if maintainOrientation then some s.forward else none,
    initialUp := if maintainOrientation then some s.up else none }

/-- Update hook of `createBezierCurveBlock`: the camera position follows the
centripetal Catmull-Rom curve; the orientation branch picks
maintain-orientation, explicit look-at target, or curve tangent. -/
def bezierOnUpdate (cap : BezierStart) (t : ℝ) (s : RigState) : RigState :=
  let pointOnCurve := catmullRomPoint cap.controlPoints t
  match cap.initialForward, cap.initialUp with
  | some fwd, some u =>
    if cap.maintainOrientation then
      (s.setLookAt pointOnCurve (pointOnCurve.add fwd)).setUp u
    else
      match cap.lookAtTarget with
      | some tgt => s.setLookAt pointOnCurve tgt
      | none =>
        let tangent := catmullRomTangent cap.controlPoints t
        s.setLookAt pointOnCurve (pointOnCurve.add (tangent.smul 5))
  | _, _ =>
    match cap.lookAtTarget with
    | some tgt => s.setLookAt pointOnCurve tgt
    | none =>
      let tangent := catmullRomTangent cap.controlPoints t
      s.setLookAt pointOnCurve (pointOnCurve.add (tangent.smul 5))

/-- The block-type keys the sequencer's `blockMap` record actually contains. -/
inductive BlockKind where
  | dolly
  | pan
  | truck
  | arc
  | composite
  | moveTo
deriving DecidableEq

/-- The sequencer's factory lookup `blockMap[config.id]`: a plain record
lookup on the full `id` string. -/
def blockMap (id : String) : Option BlockKind :=
  if id = "dolly" then some BlockKind.dolly
  else if id = "pan" then some BlockKind.pan
  else if id = "truck" then some BlockKind.truck
  else if id = "arc" then some BlockKind.arc
  else if id = "composite" then some BlockKind.composite
  else if id = "moveTo" then some BlockKind.moveTo
  else none

/-- Serializable block configuration handed to the sequencer: the unified
options plus the `id` string. -/
structure BlockConfig extends MotionBlockOptions where
  id : String

/-- Sequence entries may be bare strings (legacy) or full configurations; the
sequencer converts a string `item` into `{ id: item }`. -/
inductive SequenceItem where
  | str (s : String)
  | cfg (c : BlockConfig)

/-- The sequencer's per-item conversion
`typeof item === 'string' ? { id: item } : item`. -/
def SequenceItem.toConfig : SequenceItem → BlockConfig
  | .str s => { id := s }
  | .cfg c => c

/-- Default tween duration of each factory's `execute` (`opts.duration ?? d`
with the per-factory literal `d`). -/
def factoryDefaultDuration (k : BlockKind) : ℝ :=
  match k with
  | .dolly => 2
  | .pan => 2
  | .truck => 2
  | .arc => 3
  | .composite => 2
  | .moveTo => 2

/-- Duration of the timeline segment a factory produces for a given
configuration. -/
def blockDuration (k : BlockKind) (opts : MotionBlockOptions) : ℝ :=
  opts.duration.getD (factoryDefaultDuration k)

/-- One child segment of the master timeline: which factory produced it, where
it starts, and how long it runs. -/
structure Segment where
  kind : BlockKind
  startTime : ℝ
  duration : ℝ

/-- Assembly loop of `MotionSequencer`: resolve each configuration through
`blockMap`, skip it silently when no factory matches, and append the resolved
segments back-to-back (`mainTl.add(blockTimeline)` places each child at the
master timeline's current end). -/
def assembleSequence : List SequenceItem → ℝ → List Segment
  | [], _ => []
  | item :: rest, t =>
    match blockMap item.toConfig.id with
    | some k =>
      ⟨k, t, blockDuration k item.toConfig.toMotionBlockOptions⟩ ::
        assembleSequence rest
          (t + blockDuration k item.toConfig.toMotionBlockOptions)
    | none => assembleSequence rest t

/-- Total duration of a list of master-timeline segments. -/
def totalDuration : List Segment → ℝ
  | [] => 0
  | seg :: rest => seg.duration + totalDuration rest

/-- Sum of the durations of only those configurations whose `id` has a
matching factory. -/
def validDurationSum : List SequenceItem → ℝ
  | [] => 0
  | item :: rest =>
    (match blockMap item.toConfig.id with
     | some k => blockDuration k item.toConfig.toMotionBlockOptions
     | none => 0) + validDurationSum rest

/-- Back-to-back placement: each segment starts exactly where the previous one
ends. -/
def backToBack : ℝ → List Segment → Prop
  | _, [] => True
  | t, seg :: rest => seg.startTime = t ∧ backToBack (t + seg.duration) rest

/-- The timeline a factory's `execute` returns, reduced to the list of its
child tween durations (a bare `gsap.timeline()` has no children; `tl.to(...)`
appends one tween). -/
def timelineDuration (children : List ℝ) : ℝ := children.sum

/-- Warning text of the bezier factory's missing-configuration branch. -/
def bezierMissingConfigWarning : String :=
  "Bezier curve block: No bezier curve configuration provided"

/-- Result of `createBezierCurveBlock(...).execute`: the returned timeline's
child tweens together with the console warnings emitted.  With no
`bezierCurve` configuration the factory warns and returns the still-empty
timeline; otherwise it registers one tween of the configured duration. -/
def bezierExecute (opts : MotionBlockOptions) : List ℝ × List String :=
  match opts.bezierCurve with
  | none => ([], [bezierMissingConfigWarning])
  | some _ => ([opts.duration.getD 3], [])

/-- The damping-related state of `MotionSequencer`: the rig's
`dampingFactor` and the `originalDampingRef` ref cell. -/
structure SeqState where
  damping : ℝ
  savedDamping : ℝ

/-- Run start (`isPlaying` effect body): save the current damping factor into
the ref, then override it with the animation value `0.05`. -/
def seqRunStart (st : SeqState) : SeqState :=
  { st with savedDamping := st.damping, damping := 0.05 }

/-- The master timeline's `onComplete`: restore the damping factor from the
ref, then invoke the completion callback; the returned real is the damping
value the callback observes. -/
def seqOnComplete (st : SeqState) : SeqState × ℝ :=
  let st := { st with damping := st.savedDamping }
  (st, st.damping)

/-- Effect cleanup (teardown or dependency change): kill the timeline and
restore the damping factor from the ref. -/
def seqCleanup (st : SeqState) : SeqState :=
  { st with damping := st.savedDamping }

/-- Effect body for a given `isPlaying` value: a fresh run start when playing,
a plain pause (no damping change) otherwise. -/
def seqEffectBody (isPlaying : Bool) (st : SeqState) : SeqState :=
  if isPlaying then seqRunStart st else st

/-- Parsed JSON values, the input domain of the store's
`importFileToStorage` after `JSON.parse` succeeds. -/
inductive JSValue where
  | null
  | bool (b : Bool)
  | num (q : ℚ)
  | str (s : String)
  | arr (xs : List JSValue)
  | obj (fields : List (String × JSValue))

/-- JavaScript property access `v[key]`: defined on objects, `undefined`
(modelled as `none`) on every other value. -/
def getField (v : JSValue) (key : String) : Option JSValue :=
  match v with
  | .obj fields => fields.lookup key
  | _ => none

/-- JavaScript truthiness of a parsed JSON value. -/
def truthy : JSValue → Bool
  | .null => false
  | .bool b => b
  | .num q => decide (q ≠ 0)
  | .str s => decide (s ≠ "")
  | .arr _ => true
  | .obj _ => true

/-- The import's dual-format resolution `data.blocks || data`. -/
def resolveBlocks (data : JSValue) : JSValue :=
  match getField data "blocks" with
  | some v => if truthy v then v else data
  | none => data

/-- Per-element validation of the import loop: the check
`!block.id || typeof block.id !== 'string'` fails the element, so an element
is valid exactly when its `id` is a non-empty string. -/
def hasValidId (block : JSValue) : Bool :=
  match getField block "id" with
  | some (.str s) => decide (s ≠ "")
  | _ => false

/-- The store's `importFileToStorage` on a parsed file: resolves the dual
format, requires an array whose every element passes the `id` check, and
stores the whole block list on success; any thrown validation error is caught
and surfaces as a failure with nothing stored. -/
def importFileToStorage (data : JSValue) : Option (List JSValue) :=
  match resolveBlocks data with
  | .arr xs => if xs.all hasValidId then some xs else none
  | _ => none

/-- Spec-side reading of the element condition: the element has a non-empty
string `id`. -/
def HasNonEmptyStringId (block : JSValue) : Prop :=
  ∃ s : String, getField block "id" = some (JSValue.str s) ∧ s ≠ ""

lemma hasValidId_iff (b : JSValue) :
    hasValidId b = true ↔ HasNonEmptyStringId b := by
  unfold hasValidId HasNonEmptyStringId
  rcases h : getField b "id" with _ | v
  · simp
  · rcases v with _ | b' | q | s | xs | fields <;> simp

/-- C9 helper: acceptance happens exactly when the resolved blocks value is an
array all of whose elements carry a non-empty string id. -/
lemma importFileToStorage_isSome (data : JSValue) :
    (importFileToStorage data).isSome = true ↔
      ∃ xs, resolveBlocks data = JSValue.arr xs ∧
        ∀ b ∈ xs, HasNonEmptyStringId b := by
  unfold importFileToStorage
  rcases h : resolveBlocks data with _ | b | q | s | xs | fields
  all_goals simp only [h]
  · simp
  · simp
  · simp
  · simp
  · by_cases hall : xs.all hasValidId = true
    · rw [if_pos hall]
      simp only [Option.isSome_some, true_iff]
      refine ⟨xs, rfl, ?_⟩
      intro b hb
      exact (hasValidId_iff b).mp (List.all_eq_true.mp hall b hb)
    · rw [if_neg hall]
      simp only [Option.isSome_none, Bool.false_eq_true, false_iff]
      rintro ⟨ys, hys, hvalid⟩
      cases hys
      exact hall (List.all_eq_true.mpr fun b hb =>
        (hasValidId_iff b).mpr (hvalid b hb))
  · simp

/-- C9 helper: on success the stored list is exactly the resolved array
(the import is atomic). -/
lemma importFileToStorage_stores (data : JSValue) (xs : List JSValue)
    (h : importFileToStorage data = some xs) :
    resolveBlocks data = JSValue.arr xs := by
  unfold importFileToStorage at h
  rcases hr : resolveBlocks data with _ | b | q | s | ys | fields <;>
    rw [hr] at h <;> simp at h
  rcases h with ⟨-, h2⟩
  rw [h2]

/-- C9 helper: the wrapped `{version, exportedAt, blocks}` format and the bare
array import identically. -/
lemma import_wrapped_eq_bare (version exportedAt : JSValue)
    (bs : List JSValue) :
    importFileToStorage (JSValue.obj
      [("version", version), ("exportedAt", exportedAt),
       ("blocks", JSValue.arr bs)]) =
      importFileToStorage (JSValue.arr bs) := by
  unfold importFileToStorage resolveBlocks getField
  simp [List.lookup, truthy]

/-- C9: sequence-file import accepts both the wrapped format and the bare
legacy array with identical results, stores exactly the parsed block list,
and rejects atomically exactly when the resolved blocks value is not an array
or some element lacks a non-empty string `id`; concretely, the spec's
one-block example imports identically in both formats. -/
theorem C9_import_formats :
    (∀ version exportedAt bs,
      importFileToStorage (JSValue.obj
        [("version", version), ("exportedAt", exportedAt),
         ("blocks", JSValue.arr bs)]) =
        importFileToStorage (JSValue.arr bs)) ∧
    (∀ data, (importFileToStorage data).isSome = true ↔
      ∃ xs, resolveBlocks data = JSValue.arr xs ∧
        ∀ b ∈ xs, HasNonEmptyStringId b) ∧
    (∀ data xs, importFileToStorage data = some xs →
      resolveBlocks data = JSValue.arr xs) ∧
    (importFileToStorage (JSValue.arr
        [JSValue.obj [("id", JSValue.str "dolly"),
          ("distanceDelta", JSValue.num 1)]]) =
      some [JSValue.obj [("id", JSValue.str "dolly"),
        ("distanceDelta", JSValue.num 1)]]) ∧
    (importFileToStorage (JSValue.obj
        [("version", JSValue.str "1.0"), ("exportedAt", JSValue.str "x"),
         ("blocks", JSValue.arr [JSValue.obj [("id", JSValue.str "dolly"),
           ("distanceDelta", JSValue.num 1)]])]) =
      some [JSValue.obj [("id", JSValue.str "dolly"),
        ("distanceDelta", JSValue.num 1)]]) ∧
    importFileToStorage (JSValue.obj [("blocks", JSValue.num 5)]) = none ∧
    importFileToStorage (JSValue.arr [JSValue.obj []]) = none := by
  refine ⟨import_wrapped_eq_bare, importFileToStorage_isSome,
    importFileToStorage_stores, ?_, ?_, ?_, ?_⟩
  · rfl
  · rfl
  · rfl
  · rfl

/-- Witness for C9: the accepted one-block example stores exactly its
resolved block array. -/
theorem C9_import_formats_witness :
    resolveBlocks (JSValue.arr [JSValue.obj [("id", JSValue.str "dolly"),
        ("distanceDelta", JSValue.num 1)]]) =
      JSValue.arr [JSValue.obj [("id", JSValue.str "dolly"),
        ("distanceDelta", JSValue.num 1)]] :=
  C9_import_formats.2.2.1 _ _ rfl

/-- The editor store's `addBlock` id construction
(backtick-template `type`-`timestamp`). -/
def addBlockId (type : String) (timestamp : ℕ) : String :=
  type ++ "-" ++ toString timestamp

/-- The type key the spec describes: the substring of the `id` before the
first `-` (the whole string when there is no `-`), as also displayed by the
editor via `id.split('-')[0]`. -/
def blockTypeKey (id : String) : String :=
  String.mk (id.data.takeWhile (fun c => decide (c ≠ '-')))

/-- C4: the sequencer's factory lookup uses the full `id` string, so an
editor-produced id such as `dolly-1736000000000` matches no factory and the
block is skipped, even though its type key `dolly` does name a factory; the
claimed prefix-based selection is what the editor and store assume but not
what the sequencer implements. -/
theorem C4_full_id_lookup_bug :
    blockMap (addBlockId "dolly" 1736000000000) = none ∧
    blockTypeKey (addBlockId "dolly" 1736000000000) = "dolly" ∧
    blockMap (blockTypeKey (addBlockId "dolly" 1736000000000)) =
      some BlockKind.dolly ∧
    assembleSequence
      [SequenceItem.cfg { id := addBlockId "dolly" 1736000000000 }] 0 = [] := by
  refine ⟨by decide, by decide, by decide, ?_⟩
  have h : blockMap (addBlockId "dolly" 1736000000000) = none := by decide
  simp [assembleSequence, SequenceItem.toConfig, h]

lemma assembleSequence_backToBack (items : List SequenceItem) (t0 : ℝ) :
    backToBack t0 (assembleSequence items t0) := by
  induction items generalizing t0 with
  | nil => trivial
  | cons item rest ih =>
    rcases h : blockMap item.toConfig.id with _ | k
    · simpa only [assembleSequence, h] using ih t0
    · simp only [assembleSequence, h, backToBack]
      exact ⟨trivial, ih _⟩

lemma assembleSequence_totalDuration (items : List SequenceItem) (t0 : ℝ) :
    totalDuration (assembleSequence items t0) = validDurationSum items := by
  induction items generalizing t0 with
  | nil => rfl
  | cons item rest ih =>
    rcases h : blockMap item.toConfig.id with _ | k
    · simp only [assembleSequence, h, validDurationSum, ih t0]
      ring
    · simp only [assembleSequence, h, validDurationSum, totalDuration, ih]

/-- C5: configurations with no matching factory are skipped silently without
consuming timeline time, the remaining segments are placed back-to-back in
array order, and the total duration is the sum of only the valid blocks'
durations; the spec's `[dolly, bogusType, pan]` example yields exactly the
dolly segment at 0 and the pan segment at 2, totalling `2 + 2`. -/
theorem C5_skip_unknown :
    (∀ items t0, backToBack t0 (assembleSequence items t0)) ∧
    (∀ items t0,
      totalDuration (assembleSequence items t0) = validDurationSum items) ∧
    (assembleSequence
        [SequenceItem.cfg { id := "dolly" }, SequenceItem.cfg { id := "bogusType" },
         SequenceItem.cfg { id := "pan" }] 0 =
      [⟨BlockKind.dolly, 0, 2⟩, ⟨BlockKind.pan, 0 + 2, 2⟩]) ∧
    totalDuration
        (assembleSequence
          [SequenceItem.cfg { id := "dolly" }, SequenceItem.cfg { id := "bogusType" },
           SequenceItem.cfg { id := "pan" }] 0) = 2 + 2 := by
  refine ⟨assembleSequence_backToBack, assembleSequence_totalDuration, ?_, ?_⟩
  · have hd : blockMap "dolly" = some BlockKind.dolly := by decide
    have hb : blockMap "bogusType" = none := by decide
    have hp : blockMap "pan" = some BlockKind.pan := by decide
    simp [assembleSequence, SequenceItem.toConfig, hd, hb, hp, blockDuration,
      factoryDefaultDuration]
  · have hd : blockMap "dolly" = some BlockKind.dolly := by decide
    have hb : blockMap "bogusType" = none := by decide
    have hp : blockMap "pan" = some BlockKind.pan := by decide
    simp [assembleSequence, SequenceItem.toConfig, hd, hb, hp, blockDuration,
      factoryDefaultDuration, totalDuration]

/-- C7 counterexample: with `duration: 3` and no `bezierCurve` configuration
the factory returns the still-empty timeline, which consumes `0` seconds of
timeline time, not the configured `3`. -/
theorem C7_counterexample :
    timelineDuration (bezierExecute { duration := some 3 }).1 = 0 ∧
      (0 : ℝ) ≠ 3 := by
  constructor
  · simp [bezierExecute, timelineDuration]
  · norm_num

/-- C7 (amended): with no `bezierCurve` configuration the factory emits the
diagnostic warning instead of throwing and returns a valid timeline segment
with no tween at all — so no rig mutation can occur — but that segment has
duration `0` and consumes none of the configured `duration`. -/
theorem C7_missing_bezier_amended (opts : MotionBlockOptions)
    (h : opts.bezierCurve = none) :
    bezierExecute opts = ([], [bezierMissingConfigWarning]) ∧
    timelineDuration (bezierExecute opts).1 = 0 := by
  rw [show bezierExecute opts = ([], [bezierMissingConfigWarning]) by
    unfold bezierExecute
    rw [h]]
  simp [timelineDuration]

/-- Witness for C7: the amended statement evaluated at the concrete
configuration `{duration: 3}`. -/
theorem C7_missing_bezier_witness :
    bezierExecute { duration := some 3 } = ([], [bezierMissingConfigWarning]) ∧
    timelineDuration (bezierExecute { duration := some 3 }).1 = 0 :=
  C7_missing_bezier_amended { duration := some 3 } rfl

/-- C8: the damping factor captured at run start is restored to its pre-run
value after a normally-completed run (and the completion callback already
observes the restored value), after a run aborted by toggling playing off,
after a run superseded by a new run (whose own completion again restores it),
and after a teardown during playback. -/
theorem C8_damping_restored (d0 r0 : ℝ) :
    ((seqOnComplete (seqEffectBody true ⟨d0, r0⟩)).1.damping = d0 ∧
      (seqOnComplete (seqEffectBody true ⟨d0, r0⟩)).2 = d0) ∧
    (seqEffectBody false (seqCleanup (seqEffectBody true ⟨d0, r0⟩))).damping = d0 ∧
    (seqOnComplete (seqEffectBody true
      (seqCleanup (seqEffectBody true ⟨d0, r0⟩)))).1.damping = d0 ∧
    (seqCleanup (seqEffectBody true ⟨d0, r0⟩)).damping = d0 := by
  simp [seqEffectBody, seqRunStart, seqOnComplete, seqCleanup]

lemma truck_truck (s : RigState) (a b c d : ℝ) :
    (s.truck a b).truck c d = s.truck (a + c) (b + d) := by
  have hx : s.truckX + a + c = s.truckX + (a + c) := by ring
  have hy : s.truckY + b + d = s.truckY + (b + d) := by ring
  simp [RigState.truck, hx, hy]

lemma truckFold_spec (amount : ℝ) (ps : List ℝ) :
    ∀ (l0 : ℝ) (s : RigState),
      (ps.foldl (truckOnUpdate amount) (l0, s)).1 = ps.getLastD l0 ∧
      (ps.foldl (truckOnUpdate amount) (l0, s)).2 =
        s.truck (amount * (ps.getLastD l0 - l0)) 0 := by
  induction ps with
  | nil =>
    intro l0 s
    constructor
    · rfl
    · simp [List.getLastD, RigState.truck]
  | cons p ps ih =>
    intro l0 s
    have step : (p :: ps).foldl (truckOnUpdate amount) (l0, s) =
        ps.foldl (truckOnUpdate amount) (p, s.truck (amount * (p - l0)) 0) := rfl
    obtain ⟨h1, h2⟩ := ih p (s.truck (amount * (p - l0)) 0)
    rw [step, List.getLastD_cons]
    refine ⟨h1, ?_⟩
    rw [h2, truck_truck]
    congr 1
    · ring
    · ring

lemma pedestalFold_spec (amount : ℝ) (ps : List ℝ) :
    ∀ (l0 : ℝ) (s : RigState),
      (ps.foldl (pedestalOnUpdate amount) (l0, s)).1 = ps.getLastD l0 ∧
      (ps.foldl (pedestalOnUpdate amount) (l0, s)).2 =
        s.truck 0 (amount * (ps.getLastD l0 - l0)) := by
  induction ps with
  | nil =>
    intro l0 s
    constructor
    · rfl
    · simp [List.getLastD, RigState.truck]
  | cons p ps ih =>
    intro l0 s
    have step : (p :: ps).foldl (pedestalOnUpdate amount) (l0, s) =
        ps.foldl (pedestalOnUpdate amount) (p, s.truck 0 (amount * (p - l0))) := rfl
    obtain ⟨h1, h2⟩ := ih p (s.truck 0 (amount * (p - l0)))
    rw [step, List.getLastD_cons]
    refine ⟨h1, ?_⟩
    rw [h2, truck_truck]
    congr 1
    · ring
    · ring

/-- Horizontal truck amount of the composite block's configuration. -/
def compositeXAmt (opts : MotionBlockOptions) : ℝ :=
  match opts.truck with
  | some t => t.x.getD 0
  | none => 0

/-- Vertical truck amount of the composite block's configuration. -/
def compositeYAmt (opts : MotionBlockOptions) : ℝ :=
  match opts.truck with
  | some t => t.y.getD 0
  | none => 0

lemma compositeOnUpdate_components (opts : MotionBlockOptions)
    (cap : CompositeStart) (st : ℝ × RigState) (p : ℝ) :
    (compositeOnUpdate opts cap st p).1 = p ∧
    (compositeOnUpdate opts cap st p).2.truckX =
      st.2.truckX + compositeXAmt opts * (p - st.1) ∧
    (compositeOnUpdate opts cap st p).2.truckY =
      st.2.truckY + compositeYAmt opts * (p - st.1) := by
  obtain ⟨l0, s⟩ := st
  unfold compositeOnUpdate compositeXAmt compositeYAmt
  rcases opts.rotate with _ | ⟨ra, rp⟩ <;>
    rcases opts.dolly with _ | d <;>
    rcases opts.truck with _ | t
  all_goals try rcases ra with _ | ra
  all_goals try rcases rp with _ | rp
  all_goals refine ⟨rfl, ?_, ?_⟩
  all_goals simp only [RigState.truck, RigState.dollyTo]
  all_goals try split_ifs with hc
  all_goals try simp only []
  all_goals try ring
  all_goals try (push_neg at hc; linarith [hc.1, hc.2])

lemma compositeFold_spec (opts : MotionBlockOptions) (cap : CompositeStart)
    (ps : List ℝ) :
    ∀ (l0 : ℝ) (s : RigState),
      (ps.foldl (compositeOnUpdate opts cap) (l0, s)).1 = ps.getLastD l0 ∧
      (ps.foldl (compositeOnUpdate opts cap) (l0, s)).2.truckX =
        s.truckX + compositeXAmt opts * (ps.getLastD l0 - l0) ∧
      (ps.foldl (compositeOnUpdate opts cap) (l0, s)).2.truckY =
        s.truckY + compositeYAmt opts * (ps.getLastD l0 - l0) := by
  induction ps with
  | nil =>
    intro l0 s
    refine ⟨rfl, by simp [List.getLastD], by simp [List.getLastD]⟩
  | cons p ps ih =>
    intro l0 s
    obtain ⟨hp, hx, hy⟩ := compositeOnUpdate_components opts cap (l0, s) p
    have step : (p :: ps).foldl (compositeOnUpdate opts cap) (l0, s) =
        ps.foldl (compositeOnUpdate opts cap) (compositeOnUpdate opts cap (l0, s) p) := rfl
    obtain ⟨h1, h2, h3⟩ := ih (compositeOnUpdate opts cap (l0, s) p).1
      (compositeOnUpdate opts cap (l0, s) p).2
    rw [step, List.getLastD_cons]
    refine ⟨?_, ?_, ?_⟩
    · rw [h1, hp]
    · rw [h2, hx, hp]
      ring
    · rw [h3, hy, hp]
      ring

/-- C10: for the truck block, the pedestal block and the truck component of
the composite block, any non-decreasing tick sequence starting from the reset
`lastProgress = 0` telescopes: the accumulated view-plane translation after
the final tick at `pₙ` is exactly `amount · pₙ`, independent of tick count
and spacing. -/
theorem C10_incremental_telescoping :
    (∀ (opts : MotionBlockOptions) (radius : ℝ) (s : RigState) (ps : List ℝ),
      List.Chain (· ≤ ·) 0 ps →
      (truckRun opts radius s ps).2.truckX =
        (applyStartState s opts.startState).truckX +
          truckBlockAmount opts radius * ps.getLastD 0 ∧
      (truckRun opts radius s ps).2.truckY =
        (applyStartState s opts.startState).truckY) ∧
    (∀ (opts : MotionBlockOptions) (radius : ℝ) (s : RigState) (ps : List ℝ),
      List.Chain (· ≤ ·) 0 ps →
      (pedestalRun opts radius s ps).2.truckY =
        (applyStartState s opts.startState).truckY +
          pedestalAmount opts radius * ps.getLastD 0 ∧
      (pedestalRun opts radius s ps).2.truckX =
        (applyStartState s opts.startState).truckX) ∧
    (∀ (opts : MotionBlockOptions) (s : RigState) (ps : List ℝ),
      List.Chain (· ≤ ·) 0 ps →
      (compositeRun opts s ps).2.truckX =
        (applyStartState s opts.startState).truckX +
          compositeXAmt opts * ps.getLastD 0 ∧
      (compositeRun opts s ps).2.truckY =
        (applyStartState s opts.startState).truckY +
          compositeYAmt opts * ps.getLastD 0) := by
  refine ⟨?_, ?_, ?_⟩
  · intro opts radius s ps _
    obtain ⟨-, h2⟩ := truckFold_spec (truckBlockAmount opts radius) ps 0
      (applyStartState s opts.startState)
    unfold truckRun
    rw [h2]
    simp [RigState.truck]
  · intro opts radius s ps _
    obtain ⟨-, h2⟩ := pedestalFold_spec (pedestalAmount opts radius) ps 0
      (applyStartState s opts.startState)
    unfold pedestalRun
    rw [h2]
    simp [RigState.truck]
  · intro opts s ps _
    obtain ⟨-, h2, h3⟩ := compositeFold_spec opts
      (compositeOnStart opts s).2 ps 0 (compositeOnStart opts s).1
    unfold compositeRun
    refine ⟨?_, ?_⟩
    · rw [h2]
      simp [compositeOnStart]
    · rw [h3]
      simp [compositeOnStart]

/-- Sample rig state used by the concrete witnesses. -/
def sampleRig : RigState :=
  { azimuthAngle := 0, polarAngle := Real.pi / 3, distance := 4,
    target := ⟨0, 0, 0⟩, position := ⟨0, 0, 4⟩, fov := 50,
    up := ⟨0, 1, 0⟩, forward := ⟨0, 0, -1⟩, truckX := 0, truckY := 0,
    isPerspective := true }

/-- Witness for C10: the truck block with `truckX = 5` over the concrete
eased tick sequence `[1/2, 1]` accumulates exactly `5`. -/
theorem C10_incremental_telescoping_witness :
    (truckRun { truckX := some 5 } 1 sampleRig [1 / 2, 1]).2.truckX =
      sampleRig.truckX + 5 * 1 := by
  have h := (C10_incremental_telescoping.1 { truckX := some 5 } 1 sampleRig
    [1 / 2, 1] (by
      simp only [List.chain_cons, List.Chain.nil]
      norm_num)).1
  rw [h]
  norm_num [truckBlockAmount, applyStartState, List.getLastD]

/-- C3: for a perspective camera, the dolly-zoom update at eased progress `p`
writes distance `startDist · tan(startFov·π/360) / tan(currentFov·π/360)`
with `currentFov = startFov + (targetFov − startFov)·p`, so the apparent
subject size `2·distance·tan(fov_rad/2)` is invariant, equal to
`2·startDist·tan(startFov_rad/2)`. -/
theorem C3_dolly_zoom_invariance (opts : MotionBlockOptions)
    (startFov startDist p : ℝ) (s : RigState)
    (hpersp : s.isPerspective = true)
    (hs0 : 0 < startFov) (hs180 : startFov < 180)
    (ht0 : 0 < opts.zoomFov.getD 10) (ht180 : opts.zoomFov.getD 10 < 180)
    (hp0 : 0 ≤ p) (hp1 : p ≤ 1) :
    (dollyZoomOnUpdate opts startFov startDist p s).fov =
      startFov + (opts.zoomFov.getD 10 - startFov) * p ∧
    (dollyZoomOnUpdate opts startFov startDist p s).distance =
      startDist * (Real.tan (startFov * Real.pi / 360) /
        Real.tan ((startFov + (opts.zoomFov.getD 10 - startFov) * p) *
          Real.pi / 360)) ∧
    2 * (dollyZoomOnUpdate opts startFov startDist p s).distance *
        Real.tan ((dollyZoomOnUpdate opts startFov startDist p s).fov *
          Real.pi / 360) =
      2 * startDist * Real.tan (startFov * Real.pi / 360) := by
  have hpi := Real.pi_pos
  set targetFov := opts.zoomFov.getD 10 with htf
  set currentFov := startFov + (targetFov - startFov) * p with hcf
  have hc0 : 0 < currentFov := by
    rcases le_total startFov targetFov with h | h
    · nlinarith [mul_nonneg (sub_nonneg.mpr h) hp0]
    · nlinarith [mul_nonneg (sub_nonneg.mpr h) (sub_nonneg.mpr hp1)]
  have hc180 : currentFov < 180 := by
    rcases le_total startFov targetFov with h | h
    · nlinarith [mul_nonneg (sub_nonneg.mpr h) (sub_nonneg.mpr hp1)]
    · nlinarith [mul_nonneg (sub_nonneg.mpr h) hp0]
  have hrad0 : 0 < currentFov * Real.pi / 360 := by positivity
  have hrad2 : currentFov * Real.pi / 360 < Real.pi / 2 := by
    rw [div_lt_div_iff (by norm_num) (by norm_num)]
    nlinarith
  have htan : 0 < Real.tan (currentFov * Real.pi / 360) :=
    Real.tan_pos_of_pos_of_lt_pi_div_two hrad0 hrad2
  have hupd : dollyZoomOnUpdate opts startFov startDist p s =
      ({ s with fov := currentFov }).dollyTo
        (startDist * (Real.tan (startFov * Real.pi / 360) /
          Real.tan (currentFov * Real.pi / 360))) := by
    unfold dollyZoomOnUpdate
    rw [hpersp]
    simp only [if_true, ← htf, ← hcf]
  rw [hupd]
  refine ⟨rfl, rfl, ?_⟩
  simp only [RigState.dollyTo]
  field_simp
  ring

/-- Witness for C3: the spec's `startFov = 50°, targetFov = 10°` instance at
`p = 1/2` preserves the apparent size `2·D·tan(25°)` with `D = 4`. -/
theorem C3_dolly_zoom_invariance_witness :
    2 * (dollyZoomOnUpdate { zoomFov := some 10 } 50 4 (1 / 2) sampleRig).distance *
        Real.tan ((dollyZoomOnUpdate { zoomFov := some 10 } 50 4 (1 / 2) sampleRig).fov *
          Real.pi / 360) =
      2 * 4 * Real.tan (50 * Real.pi / 360) := by
  have h := C3_dolly_zoom_invariance { zoomFov := some 10 } 50 4 (1 / 2) sampleRig
    rfl (by norm_num) (by norm_num) (by norm_num [Option.getD])
    (by norm_num [Option.getD]) (by norm_num) (by norm_num)
  exact h.2.2

lemma getShortestAngle_self (a : ℝ) : getShortestAngle a a = a := by
  have hpi := Real.pi_pos
  have hb : (0 : ℝ) < Real.pi * 2 := by positivity
  rw [getShortestAngle_eq, sub_self]
  rw [jsRem_small 0 _ hb le_rfl hb, zero_add]
  rw [jsRem_wrap _ _ hb le_rfl (by nlinarith), sub_self]
  rw [if_neg (by push_neg; positivity)]
  ring

lemma moveToOnUpdate_components (a b : MoveToState) (p : ℝ) (s : RigState) :
    (moveToOnUpdate a b p s).azimuthAngle = a.az + (b.az - a.az) * p ∧
    (moveToOnUpdate a b p s).polarAngle = a.pol + (b.pol - a.pol) * p ∧
    (moveToOnUpdate a b p s).distance = a.dist + (b.dist - a.dist) * p ∧
    (moveToOnUpdate a b p s).target =
      ⟨a.tx + (b.tx - a.tx) * p, a.ty + (b.ty - a.ty) * p,
        a.tz + (b.tz - a.tz) * p⟩ ∧
    (moveToOnUpdate a b p s).fov =
      (if s.isPerspective then a.fov + (b.fov - a.fov) * p else s.fov) ∧
    (moveToOnUpdate a b p s).up =
      (if b.roll ≠ a.roll then
        rotateAboutAxis s.forward (a.roll + (b.roll - a.roll) * p) ⟨0, 1, 0⟩
      else s.up) := by
  unfold moveToOnUpdate RigState.dollyTo RigState.setTarget RigState.setUp
  split_ifs with h1 h2 h3 h4 <;> simp_all

/-- C6: the moveTo block resolves its end azimuth through the
shortest-angular-path helper applied to the captured start azimuth and the
requested target azimuth, and every camera-state field omitted from both
`endState` and the legacy `to` object resolves to the captured start value
and is written back unchanged at every progress `p`. -/
theorem C6_moveTo_shortest_path_and_holds (opts : MotionBlockOptions)
    (s0 : RigState) :
    (moveToOnStart opts s0).2.2.az =
      getShortestAngle (moveToOnStart opts s0).2.1.az
        (((opts.endState.getD {}).azimuth.or
          (opts.toDest.bind ToTarget.azimuth)).getD
            (moveToOnStart opts s0).2.1.az) ∧
    ((opts.endState.getD {}).azimuth = none →
      opts.toDest.bind ToTarget.azimuth = none →
      ∀ p s, (moveToOnUpdate (moveToOnStart opts s0).2.1
          (moveToOnStart opts s0).2.2 p s).azimuthAngle =
        (moveToOnStart opts s0).2.1.az) ∧
    ((opts.endState.getD {}).polar = none →
      opts.toDest.bind ToTarget.polar = none →
      ∀ p s, (moveToOnUpdate (moveToOnStart opts s0).2.1
          (moveToOnStart opts s0).2.2 p s).polarAngle =
        (moveToOnStart opts s0).2.1.pol) ∧
    ((opts.endState.getD {}).distance = none →
      opts.toDest.bind ToTarget.distance = none →
      ∀ p s, (moveToOnUpdate (moveToOnStart opts s0).2.1
          (moveToOnStart opts s0).2.2 p s).distance =
        (moveToOnStart opts s0).2.1.dist) ∧
    ((opts.endState.getD {}).center = none →
      opts.toDest.bind ToTarget.target = none →
      ∀ p s, (moveToOnUpdate (moveToOnStart opts s0).2.1
          (moveToOnStart opts s0).2.2 p s).target =
        ⟨(moveToOnStart opts s0).2.1.tx, (moveToOnStart opts s0).2.1.ty,
          (moveToOnStart opts s0).2.1.tz⟩) ∧
    ((opts.endState.getD {}).fov = none →
      ∀ p s, s.isPerspective = true →
        (moveToOnUpdate (moveToOnStart opts s0).2.1
          (moveToOnStart opts s0).2.2 p s).fov =
        (moveToOnStart opts s0).2.1.fov) ∧
    ((opts.endState.getD {}).roll = none →
      ∀ p s, (moveToOnUpdate (moveToOnStart opts s0).2.1
          (moveToOnStart opts s0).2.2 p s).up = s.up) := by
  set startSt := (moveToOnStart opts s0).2.1 with hstart
  have hend : (moveToOnStart opts s0).2.2 =
      moveToEndResolve opts (applyStartState s0 opts.startState).isPerspective
        startSt := rfl
  refine ⟨rfl, ?_, ?_, ?_, ?_, ?_, ?_⟩
  · intro h1 h2 p s
    have haz : (moveToOnStart opts s0).2.2.az = startSt.az := by
      rw [hend]
      simp only [moveToEndResolve, h1, h2, Option.none_or, Option.getD_none]
      exact getShortestAngle_self startSt.az
    rw [(moveToOnUpdate_components startSt (moveToOnStart opts s0).2.2 p s).1,
      haz]
    ring
  · intro h1 h2 p s
    have hpol : (moveToOnStart opts s0).2.2.pol = startSt.pol := by
      rw [hend]
      simp [moveToEndResolve, h1, h2]
    rw [(moveToOnUpdate_components startSt (moveToOnStart opts s0).2.2 p s).2.1,
      hpol]
    ring
  · intro h1 h2 p s
    have hdist : (moveToOnStart opts s0).2.2.dist = startSt.dist := by
      rw [hend]
      simp [moveToEndResolve, h1, h2]
    rw [(moveToOnUpdate_components startSt
      (moveToOnStart opts s0).2.2 p s).2.2.1, hdist]
    ring
  · intro h1 h2 p s
    have hc : moveToEndCenter opts startSt =
        ⟨startSt.tx, startSt.ty, startSt.tz⟩ := by
      simp [moveToEndCenter, h1, h2]
    have htx : (moveToOnStart opts s0).2.2.tx = startSt.tx := by
      rw [hend]
      simp only [moveToEndResolve, hc]
    have hty : (moveToOnStart opts s0).2.2.ty = startSt.ty := by
      rw [hend]
      simp only [moveToEndResolve, hc]
    have htz : (moveToOnStart opts s0).2.2.tz = startSt.tz := by
      rw [hend]
      simp only [moveToEndResolve, hc]
    rw [(moveToOnUpdate_components startSt
      (moveToOnStart opts s0).2.2 p s).2.2.2.1, htx, hty, htz]
    simp only [Vec3.mk.injEq]
    refine ⟨by ring, by ring, by ring⟩
  · intro h1 p s hpersp
    have hfov : (moveToOnStart opts s0).2.2.fov = startSt.fov := by
      rw [hend]
      simp [moveToEndResolve, h1]
    rw [(moveToOnUpdate_components startSt
      (moveToOnStart opts s0).2.2 p s).2.2.2.2.1, hpersp, if_pos rfl, hfov]
    ring
  · intro h1 p s
    have hroll : (moveToOnStart opts s0).2.2.roll = startSt.roll := by
      rw [hend]
      simp [moveToEndResolve, h1]
    rw [(moveToOnUpdate_components startSt
      (moveToOnStart opts s0).2.2 p s).2.2.2.2.2, if_neg (by simp [hroll])]

/-- Witness for C6: with an entirely empty configuration every field is
omitted, so the moveTo update at `p = 1/2` writes back the captured start
values. -/
theorem C6_moveTo_witness :
    (moveToOnUpdate (moveToOnStart {} sampleRig).2.1
        (moveToOnStart {} sampleRig).2.2 (1 / 2) sampleRig).azimuthAngle =
      (moveToOnStart {} sampleRig).2.1.az ∧
    (moveToOnUpdate (moveToOnStart {} sampleRig).2.1
        (moveToOnStart {} sampleRig).2.2 (1 / 2) sampleRig).polarAngle =
      (moveToOnStart {} sampleRig).2.1.pol ∧
    (moveToOnUpdate (moveToOnStart {} sampleRig).2.1
        (moveToOnStart {} sampleRig).2.2 (1 / 2) sampleRig).up = sampleRig.up := by
  obtain ⟨-, h2, h3, -, -, -, h7⟩ :=
    C6_moveTo_shortest_path_and_holds {} sampleRig
  exact ⟨h2 rfl rfl (1 / 2) sampleRig, h3 rfl rfl (1 / 2) sampleRig,
    h7 rfl (1 / 2) sampleRig⟩

lemma catmullSetup_zero (l : ℤ) (h : 2 ≤ l) : catmullSetup l 0 = (0, 0) := by
  unfold catmullSetup
  simp only [mul_zero, Int.floor_zero, Int.cast_zero, sub_zero, true_and]
  rw [if_neg (by omega)]

lemma catmullSetup_one (l : ℤ) : catmullSetup l 1 = (l - 2, 1) := by
  unfold catmullSetup
  have hfloor : ⌊(l : ℝ) - 1⌋ = l - 1 := by
    rw [show ((l : ℝ) - 1) = ((l - 1 : ℤ) : ℝ) by push_cast; ring,
      Int.floor_intCast]
  simp only [mul_one, hfloor]
  rw [if_pos ⟨by push_cast; ring, trivial⟩]

lemma cubicCalc_zero (x0 x1 t0 t1 : ℝ) :
    cubicCalc (cubicInit x0 x1 t0 t1) 0 = x0 := by
  unfold cubicCalc cubicInit
  ring

lemma cubicCalc_one (x0 x1 t0 t1 : ℝ) :
    cubicCalc (cubicInit x0 x1 t0 t1) 1 = x1 := by
  unfold cubicCalc cubicInit
  ring

lemma cubicNonuniform_calc_zero (x0 x1 x2 x3 dt0 dt1 dt2 : ℝ) :
    cubicCalc (cubicNonuniform x0 x1 x2 x3 dt0 dt1 dt2) 0 = x1 := by
  unfold cubicNonuniform
  exact cubicCalc_zero _ _ _ _

lemma cubicNonuniform_calc_one (x0 x1 x2 x3 dt0 dt1 dt2 : ℝ) :
    cubicCalc (cubicNonuniform x0 x1 x2 x3 dt0 dt1 dt2) 1 = x2 := by
  unfold cubicNonuniform
  exact cubicCalc_one _ _ _ _

lemma catmullEval_weight_zero (points : List Vec3) (ip : ℤ) :
    catmullEval points ip 0 = vget points (ip % (points.length : ℤ)) := by
  unfold catmullEval
  simp only [cubicNonuniform_calc_zero]

lemma catmullEval_weight_one (points : List Vec3) (ip : ℤ) :
    catmullEval points ip 1 = vget points ((ip + 1) % (points.length : ℤ)) := by
  unfold catmullEval
  simp only [cubicNonuniform_calc_one]

lemma catmullRomPoint_zero (points : List Vec3) (h : 2 ≤ points.length) :
    catmullRomPoint points 0 = vget points 0 := by
  unfold catmullRomPoint
  rw [catmullSetup_zero _ (by exact_mod_cast h)]
  rw [catmullEval_weight_zero]
  congr 1

lemma catmullRomPoint_one (points : List Vec3) (h : 2 ≤ points.length) :
    catmullRomPoint points 1 = vget points ((points.length : ℤ) - 1) := by
  unfold catmullRomPoint
  rw [catmullSetup_one]
  rw [catmullEval_weight_one]
  congr 1
  have h1 : (points.length : ℤ) - 2 + 1 = (points.length : ℤ) - 1 := by ring
  rw [h1]
  exact Int.emod_eq_of_lt (by omega) (by omega)

lemma bezierOnUpdate_position (cap : BezierStart) (t : ℝ) (s : RigState) :
    (bezierOnUpdate cap t s).position = catmullRomPoint cap.controlPoints t := by
  obtain ⟨pts, lat, mo, ifwd, iup⟩ := cap
  unfold bezierOnUpdate
  rcases ifwd with _ | fwd <;> rcases iup with _ | u <;>
    rcases lat with _ | tgt <;> rcases mo with _ | _ <;>
    simp [RigState.setLookAt, RigState.setUp]

lemma bezierOnStart_controlPoints (cfg : BezierCurveConfig) (s : RigState) :
    (bezierOnStart cfg s).controlPoints =
      (match cfg.controlPoints with
       | some pts =>
          if 2 ≤ pts.length then pts else bezierDefaultPoints s.position
       | none => bezierDefaultPoints s.position) := by
  obtain ⟨cps, lat, mo⟩ := cfg
  unfold bezierOnStart
  rcases cps with _ | pts <;> simp

lemma bezierOnStart_len (cfg : BezierCurveConfig) (s : RigState) :
    2 ≤ (bezierOnStart cfg s).controlPoints.length := by
  rw [bezierOnStart_controlPoints]
  rcases cfg.controlPoints with _ | pts
  · simp [bezierDefaultPoints]
  · simp only []
    split_ifs with h
    · exact h
    · simp [bezierDefaultPoints]

lemma vget_bezierDefault_zero (p : Vec3) : vget (bezierDefaultPoints p) 0 = p := by
  simp [bezierDefaultPoints, vget]

lemma truck_zero (s : RigState) : s.truck 0 0 = s := by
  simp [RigState.truck]

lemma vec_add_sub (a b : Vec3) : a.add (b.sub a) = b := by
  cases a
  cases b
  simp only [Vec3.add, Vec3.sub, Vec3.mk.injEq]
  refine ⟨by ring, by ring, by ring⟩

lemma tanHalfDeg_pos (f : ℝ) (h0 : 0 < f) (h1 : f < 180) :
    0 < Real.tan (f * Real.pi / 360) := by
  have hpi := Real.pi_pos
  refine Real.tan_pos_of_pos_of_lt_pi_div_two (by positivity) ?_
  rw [div_lt_div_iff (by norm_num) (by norm_num)]
  nlinarith

lemma getLastD_of_getLast {α : Type} (ps : List α) (d : α) (h1 : ps ≠ []) :
    ps.getLastD d = ps.getLast h1 := by
  rw [List.getLastD_eq_getLast?, List.getLast?_eq_getLast ps h1]
  rfl

lemma compositeOnUpdate_az (opts : MotionBlockOptions) (cap : CompositeStart)
    (st : ℝ × RigState) (p : ℝ) (r : RotateSpec) (a : ℝ)
    (hr : opts.rotate = some r) (ha : r.azimuth = some a) :
    (compositeOnUpdate opts cap st p).2.azimuthAngle = cap.azimuth + a * p := by
  obtain ⟨l0, s⟩ := st
  unfold compositeOnUpdate
  simp only [hr, ha]
  rcases r.polar with _ | q <;>
    rcases opts.dolly with _ | d <;>
    rcases opts.truck with _ | t <;>
    simp only [RigState.dollyTo, RigState.truck] <;>
    try split_ifs
  all_goals rfl

lemma compositeOnUpdate_pol (opts : MotionBlockOptions) (cap : CompositeStart)
    (st : ℝ × RigState) (p : ℝ) (r : RotateSpec) (q : ℝ)
    (hr : opts.rotate = some r) (hq : r.polar = some q) :
    (compositeOnUpdate opts cap st p).2.polarAngle = cap.polar + q * p := by
  obtain ⟨l0, s⟩ := st
  unfold compositeOnUpdate
  simp only [hr, hq]
  rcases r.azimuth with _ | a <;>
    rcases opts.dolly with _ | d <;>
    rcases opts.truck with _ | t <;>
    simp only [RigState.dollyTo, RigState.truck] <;>
    try split_ifs
  all_goals rfl

lemma compositeOnUpdate_dist (opts : MotionBlockOptions) (cap : CompositeStart)
    (st : ℝ × RigState) (p : ℝ) (d : ℝ) (hd : opts.dolly = some d) :
    (compositeOnUpdate opts cap st p).2.distance = cap.distance + d * p := by
  obtain ⟨l0, s⟩ := st
  unfold compositeOnUpdate
  simp only [hd]
  rcases opts.rotate with _ | ⟨ra, rp⟩ <;>
    rcases opts.truck with _ | t
  all_goals try rcases ra with _ | ra
  all_goals try rcases rp with _ | rp
  all_goals simp only [RigState.dollyTo, RigState.truck]
  all_goals try split_ifs
  all_goals rfl

lemma dollyZoomOnUpdate_components (opts : MotionBlockOptions)
    (f0 d0 p : ℝ) (s : RigState) (hp : s.isPerspective = true) :
    (dollyZoomOnUpdate opts f0 d0 p s).fov =
      f0 + (opts.zoomFov.getD 10 - f0) * p ∧
    (dollyZoomOnUpdate opts f0 d0 p s).distance =
      d0 * (Real.tan (f0 * Real.pi / 360) /
        Real.tan ((f0 + (opts.zoomFov.getD 10 - f0) * p) * Real.pi / 360)) := by
  unfold dollyZoomOnUpdate
  rw [hp]
  simp [RigState.dollyTo]

/-- Sample rig whose up vector has been rolled away from world up (as left
behind by a preceding roll block). -/
def rolledRig : RigState :=
  { sampleRig with up := ⟨1, 0, 0⟩ }

/-- C2 counterexample: two blocks violate the claim at `p = 0`.  A
bezierCurve block with explicit control points whose first point differs from
the current camera position teleports the camera at `p = 0`: the write is the
first control point `(1,0,0)`, not the captured camera position `(0,0,4)`.
And a moveTo block with `endState.roll = 1` on a rig whose up vector is
`(1,0,0)` rewrites `camera.up` at `p = 0` with the rotation of world up by the
hard-coded captured roll `0`, i.e. `(0,1,0)`, not the rig's actual up vector
at block start. -/
theorem C2_counterexample :
    (bezierOnUpdate
      (bezierOnStart { controlPoints := some [⟨1, 0, 0⟩, ⟨2, 0, 0⟩] } sampleRig)
      0 sampleRig).position ≠ sampleRig.position ∧
    (moveToOnUpdate
      (moveToOnStart { endState := some { roll := some 1 } } rolledRig).2.1
      (moveToOnStart { endState := some { roll := some 1 } } rolledRig).2.2
      0 rolledRig).up ≠ rolledRig.up := by
  constructor
  · have hpts : (bezierOnStart
        { controlPoints := some [⟨1, 0, 0⟩, ⟨2, 0, 0⟩] } sampleRig).controlPoints =
        [⟨1, 0, 0⟩, ⟨2, 0, 0⟩] := rfl
    rw [bezierOnUpdate_position, hpts, catmullRomPoint_zero _ (by norm_num)]
    norm_num [vget, sampleRig, Vec3.mk.injEq]
  · have hend : (moveToOnStart { endState := some { roll := some 1 } }
        rolledRig).2.2.roll = 1 := rfl
    have hstart : (moveToOnStart { endState := some { roll := some 1 } }
        rolledRig).2.1.roll = 0 := rfl
    have hup := (moveToOnUpdate_components
      (moveToOnStart { endState := some { roll := some 1 } } rolledRig).2.1
      (moveToOnStart { endState := some { roll := some 1 } } rolledRig).2.2
      0 rolledRig).2.2.2.2.2
    rw [if_pos (by rw [hend, hstart]; norm_num)] at hup
    rw [hup, hend, hstart]
    rw [show (0 : ℝ) + (1 - 0) * 0 = 0 by norm_num, rotateAboutAxis_zero]
    norm_num [rolledRig, Vec3.mk.injEq]

/-- C2 (amended): at eased progress `p = 0` every block's update writes back
exactly the values captured in its start hook, and at `p = 1` exactly the
captured values plus the full configured delta (cumulatively so for the
incremental truck/pedestal/composite translations over any tick sequence
ending at `1`, and for both composite rotation components) or the explicit
absolute target — with two exceptions: the bezierCurve block, whose position
at `p = 0` is the first control point (equal to the captured camera position
only when the control points are defaulted) and at `p = 1` the last control
point; and the moveTo roll write, which (because the captured start roll is
hard-coded `0`) when `endState.roll` differs from `0` rewrites the up vector
at `p = 0` to `(0,1,0)` — world up, not the rig's actual up at block start —
and at `p = 1` to world up rotated about the forward axis by the end roll. -/
theorem C2_endpoint_exactness_amended :
    (∀ (opts : MotionBlockOptions) (radius : ℝ) (s0 s : RigState),
      (dollyOnUpdate opts radius (dollyOnStart opts s0).2 0 s).distance =
        (dollyOnStart opts s0).2 ∧
      (dollyOnUpdate opts radius (dollyOnStart opts s0).2 1 s).distance =
        (dollyOnStart opts s0).2 + opts.distanceDelta.getD (radius * 0.5)) ∧
    (∀ (opts : MotionBlockOptions) (s0 s : RigState),
      (panOnUpdate opts (panOnStart opts s0).2.1
        (panOnStart opts s0).2.2.2 0 s).position = (panOnStart opts s0).2.1 ∧
      (panOnUpdate opts (panOnStart opts s0).2.1
        (panOnStart opts s0).2.2.2 0 s).target = (panOnStart opts s0).2.2.1 ∧
      (panOnUpdate opts (panOnStart opts s0).2.1
        (panOnStart opts s0).2.2.2 1 s).target =
        (panOnStart opts s0).2.1.add
          (((panOnStart opts s0).2.2.2).applyAxisAngle ⟨0, 1, 0⟩
            (opts.angleDelta.getD (Real.pi / 4)))) ∧
    (∀ (opts : MotionBlockOptions) (radius : ℝ) (s0 : RigState) (ps : List ℝ)
      (h1 : ps ≠ []), ps.getLast h1 = 1 →
      (truckRun opts radius s0 ps).2.truckX =
        (applyStartState s0 opts.startState).truckX +
          truckBlockAmount opts radius ∧
      (truckRun opts radius s0 [0]).2 = applyStartState s0 opts.startState) ∧
    (∀ (opts : MotionBlockOptions) (s0 s : RigState),
      (tiltOnUpdate opts (tiltOnStart opts s0).2 0 s).polarAngle =
        (tiltOnStart opts s0).2 ∧
      (tiltOnUpdate opts (tiltOnStart opts s0).2 1 s).polarAngle =
        (tiltOnStart opts s0).2 + opts.angleDelta.getD (Real.pi / 6)) ∧
    (∀ (opts : MotionBlockOptions) (radius : ℝ) (s0 : RigState) (ps : List ℝ)
      (h1 : ps ≠ []), ps.getLast h1 = 1 →
      (pedestalRun opts radius s0 ps).2.truckY =
        (applyStartState s0 opts.startState).truckY +
          pedestalAmount opts radius ∧
      (pedestalRun opts radius s0 [0]).2 = applyStartState s0 opts.startState) ∧
    (∀ (opts : MotionBlockOptions) (s0 s : RigState),
      (rollOnUpdate opts (rollOnStart opts s0).2.1
        (rollOnStart opts s0).2.2 0 s).up = (rollOnStart opts s0).2.1 ∧
      (rollOnUpdate opts (rollOnStart opts s0).2.1
        (rollOnStart opts s0).2.2 1 s).up =
        rotateAboutAxis (rollOnStart opts s0).2.2
          (opts.angleDelta.getD (Real.pi / 6)) (rollOnStart opts s0).2.1) ∧
    (∀ (opts : MotionBlockOptions) (s0 s : RigState), s.isPerspective = true →
      (zoomOnUpdate opts (zoomOnStart opts s0).2 0 s).fov =
        (zoomOnStart opts s0).2 ∧
      (zoomOnUpdate opts (zoomOnStart opts s0).2 1 s).fov =
        opts.zoomFov.getD 20) ∧
    (∀ (opts : MotionBlockOptions) (s0 s : RigState), s.isPerspective = true →
      0 < (dollyZoomOnStart opts s0).2.1 →
      (dollyZoomOnStart opts s0).2.1 < 180 →
      (dollyZoomOnUpdate opts (dollyZoomOnStart opts s0).2.1
        (dollyZoomOnStart opts s0).2.2 0 s).fov =
        (dollyZoomOnStart opts s0).2.1 ∧
      (dollyZoomOnUpdate opts (dollyZoomOnStart opts s0).2.1
        (dollyZoomOnStart opts s0).2.2 0 s).distance =
        (dollyZoomOnStart opts s0).2.2 ∧
      (dollyZoomOnUpdate opts (dollyZoomOnStart opts s0).2.1
        (dollyZoomOnStart opts s0).2.2 1 s).fov = opts.zoomFov.getD 10) ∧
    (∀ (opts : MotionBlockOptions) (radius : ℝ) (s0 s : RigState),
      (arcOnUpdate opts radius (arcOnStart opts s0).2.1
        (arcOnStart opts s0).2.2 0 s).azimuthAngle = (arcOnStart opts s0).2.1 ∧
      (arcOnUpdate opts radius (arcOnStart opts s0).2.1
        (arcOnStart opts s0).2.2 0 s).distance = (arcOnStart opts s0).2.2 ∧
      (arcOnUpdate opts radius (arcOnStart opts s0).2.1
        (arcOnStart opts s0).2.2 1 s).azimuthAngle =
        (arcOnStart opts s0).2.1 + opts.arcAngle.getD (Real.pi / 2) ∧
      (arcOnUpdate opts radius (arcOnStart opts s0).2.1
        (arcOnStart opts s0).2.2 1 s).distance =
        (arcOnStart opts s0).2.2 + opts.distanceDelta.getD (radius * 0.3)) ∧
    (∀ (opts : MotionBlockOptions) (s0 : RigState) (st : ℝ × RigState)
      (r : RotateSpec) (a : ℝ),
      opts.rotate = some r → r.azimuth = some a →
      (compositeOnUpdate opts (compositeOnStart opts s0).2 st 0).2.azimuthAngle =
        (compositeOnStart opts s0).2.azimuth ∧
      (compositeOnUpdate opts (compositeOnStart opts s0).2 st 1).2.azimuthAngle =
        (compositeOnStart opts s0).2.azimuth + a) ∧
    (∀ (opts : MotionBlockOptions) (s0 : RigState) (st : ℝ × RigState)
      (r : RotateSpec) (q : ℝ),
      opts.rotate = some r → r.polar = some q →
      (compositeOnUpdate opts (compositeOnStart opts s0).2 st 0).2.polarAngle =
        (compositeOnStart opts s0).2.polar ∧
      (compositeOnUpdate opts (compositeOnStart opts s0).2 st 1).2.polarAngle =
        (compositeOnStart opts s0).2.polar + q) ∧
    (∀ (opts : MotionBlockOptions) (s0 : RigState) (st : ℝ × RigState) (d : ℝ),
      opts.dolly = some d →
      (compositeOnUpdate opts (compositeOnStart opts s0).2 st 0).2.distance =
        (compositeOnStart opts s0).2.distance ∧
      (compositeOnUpdate opts (compositeOnStart opts s0).2 st 1).2.distance =
        (compositeOnStart opts s0).2.distance + d) ∧
    (∀ (opts : MotionBlockOptions) (s0 : RigState) (ps : List ℝ)
      (h1 : ps ≠ []), ps.getLast h1 = 1 →
      (compositeRun opts s0 ps).2.truckX =
        (applyStartState s0 opts.startState).truckX + compositeXAmt opts ∧
      (compositeRun opts s0 ps).2.truckY =
        (applyStartState s0 opts.startState).truckY + compositeYAmt opts) ∧
    (∀ (opts : MotionBlockOptions) (s0 s : RigState),
      (moveToOnUpdate (moveToOnStart opts s0).2.1
        (moveToOnStart opts s0).2.2 0 s).azimuthAngle =
        (moveToOnStart opts s0).2.1.az ∧
      (moveToOnUpdate (moveToOnStart opts s0).2.1
        (moveToOnStart opts s0).2.2 0 s).polarAngle =
        (moveToOnStart opts s0).2.1.pol ∧
      (moveToOnUpdate (moveToOnStart opts s0).2.1
        (moveToOnStart opts s0).2.2 0 s).distance =
        (moveToOnStart opts s0).2.1.dist ∧
      (moveToOnUpdate (moveToOnStart opts s0).2.1
        (moveToOnStart opts s0).2.2 0 s).target =
        ⟨(moveToOnStart opts s0).2.1.tx, (moveToOnStart opts s0).2.1.ty,
          (moveToOnStart opts s0).2.1.tz⟩ ∧
      (moveToOnUpdate (moveToOnStart opts s0).2.1
        (moveToOnStart opts s0).2.2 1 s).azimuthAngle =
        (moveToOnStart opts s0).2.2.az ∧
      (moveToOnUpdate (moveToOnStart opts s0).2.1
        (moveToOnStart opts s0).2.2 1 s).polarAngle =
        (moveToOnStart opts s0).2.2.pol ∧
      (moveToOnUpdate (moveToOnStart opts s0).2.1
        (moveToOnStart opts s0).2.2 1 s).distance =
        (moveToOnStart opts s0).2.2.dist ∧
      (moveToOnUpdate (moveToOnStart opts s0).2.1
        (moveToOnStart opts s0).2.2 1 s).target =
        ⟨(moveToOnStart opts s0).2.2.tx, (moveToOnStart opts s0).2.2.ty,
          (moveToOnStart opts s0).2.2.tz⟩ ∧
      (s.isPerspective = true →
        (moveToOnUpdate (moveToOnStart opts s0).2.1
          (moveToOnStart opts s0).2.2 0 s).fov =
          (moveToOnStart opts s0).2.1.fov ∧
        (moveToOnUpdate (moveToOnStart opts s0).2.1
          (moveToOnStart opts s0).2.2 1 s).fov =
          (moveToOnStart opts s0).2.2.fov) ∧
      (moveToOnStart opts s0).2.1.roll = 0 ∧
      ((moveToOnStart opts s0).2.2.roll = (moveToOnStart opts s0).2.1.roll →
        (moveToOnUpdate (moveToOnStart opts s0).2.1
          (moveToOnStart opts s0).2.2 0 s).up = s.up ∧
        (moveToOnUpdate (moveToOnStart opts s0).2.1
          (moveToOnStart opts s0).2.2 1 s).up = s.up) ∧
      ((moveToOnStart opts s0).2.2.roll ≠ (moveToOnStart opts s0).2.1.roll →
        (moveToOnUpdate (moveToOnStart opts s0).2.1
          (moveToOnStart opts s0).2.2 0 s).up = ⟨0, 1, 0⟩ ∧
        (moveToOnUpdate (moveToOnStart opts s0).2.1
          (moveToOnStart opts s0).2.2 1 s).up =
          rotateAboutAxis s.forward (moveToOnStart opts s0).2.2.roll
            ⟨0, 1, 0⟩)) ∧
    (∀ (cfg : BezierCurveConfig) (s0 s : RigState),
      (bezierOnUpdate (bezierOnStart cfg s0) 0 s).position =
        vget (bezierOnStart cfg s0).controlPoints 0 ∧
      (bezierOnUpdate (bezierOnStart cfg s0) 1 s).position =
        vget (bezierOnStart cfg s0).controlPoints
          (((bezierOnStart cfg s0).controlPoints.length : ℤ) - 1) ∧
      (cfg.controlPoints = none →
        (bezierOnUpdate (bezierOnStart cfg s0) 0 s).position = s0.position)) := by
  refine ⟨?_, ?_, ?_, ?_, ?_, ?_, ?_, ?_, ?_, ?_, ?_, ?_, ?_, ?_, ?_⟩
  · intro opts radius s0 s
    constructor <;> simp [dollyOnUpdate, RigState.dollyTo]
  · intro opts s0 s
    refine ⟨rfl, ?_, ?_⟩
    · show (panOnStart opts s0).2.1.add
        (((panOnStart opts s0).2.2.2).applyAxisAngle ⟨0, 1, 0⟩
          (opts.angleDelta.getD (Real.pi / 4) * 0)) = (panOnStart opts s0).2.2.1
      rw [mul_zero, applyAxisAngle_zero]
      exact vec_add_sub _ _
    · show (panOnStart opts s0).2.1.add
        (((panOnStart opts s0).2.2.2).applyAxisAngle ⟨0, 1, 0⟩
          (opts.angleDelta.getD (Real.pi / 4) * 1)) = _
      rw [mul_one]
  · intro opts radius s0 ps h1 h2
    constructor
    · obtain ⟨-, hfold⟩ := truckFold_spec (truckBlockAmount opts radius) ps 0
        (applyStartState s0 opts.startState)
      unfold truckRun
      rw [hfold, getLastD_of_getLast ps 0 h1, h2]
      norm_num [RigState.truck]
    · obtain ⟨-, hfold⟩ := truckFold_spec (truckBlockAmount opts radius) [0] 0
        (applyStartState s0 opts.startState)
      unfold truckRun
      rw [hfold]
      simp [List.getLastD, RigState.truck]
  · intro opts s0 s
    constructor <;> simp [tiltOnUpdate]
  · intro opts radius s0 ps h1 h2
    constructor
    · obtain ⟨-, hfold⟩ := pedestalFold_spec (pedestalAmount opts radius) ps 0
        (applyStartState s0 opts.startState)
      unfold pedestalRun
      rw [hfold, getLastD_of_getLast ps 0 h1, h2]
      norm_num [RigState.truck]
    · obtain ⟨-, hfold⟩ := pedestalFold_spec (pedestalAmount opts radius) [0] 0
        (applyStartState s0 opts.startState)
      unfold pedestalRun
      rw [hfold]
      simp [List.getLastD, RigState.truck]
  · intro opts s0 s
    constructor
    · show (s.setUp (rotateAboutAxis (rollOnStart opts s0).2.2
        (opts.angleDelta.getD (Real.pi / 6) * 0) (rollOnStart opts s0).2.1)).up = _
      rw [mul_zero, rotateAboutAxis_zero]
      rfl
    · show (s.setUp (rotateAboutAxis (rollOnStart opts s0).2.2
        (opts.angleDelta.getD (Real.pi / 6) * 1) (rollOnStart opts s0).2.1)).up = _
      rw [mul_one]
      rfl
  · intro opts s0 s hpersp
    constructor <;> simp [zoomOnUpdate, hpersp]
  · intro opts s0 s hpersp h0 h180
    have htan : Real.tan ((dollyZoomOnStart opts s0).2.1 * Real.pi / 360) ≠ 0 :=
      ne_of_gt (tanHalfDeg_pos _ h0 h180)
    obtain ⟨hfov0, hdist0⟩ := dollyZoomOnUpdate_components opts
      (dollyZoomOnStart opts s0).2.1 (dollyZoomOnStart opts s0).2.2 0 s hpersp
    obtain ⟨hfov1, -⟩ := dollyZoomOnUpdate_components opts
      (dollyZoomOnStart opts s0).2.1 (dollyZoomOnStart opts s0).2.2 1 s hpersp
    refine ⟨?_, ?_, ?_⟩
    · rw [hfov0]
      ring
    · rw [hdist0]
      rw [show (dollyZoomOnStart opts s0).2.1 +
        (opts.zoomFov.getD 10 - (dollyZoomOnStart opts s0).2.1) * 0 =
        (dollyZoomOnStart opts s0).2.1 by ring]
      rw [div_self htan, mul_one]
    · rw [hfov1]
      ring
  · intro opts radius s0 s
    refine ⟨?_, ?_, ?_, ?_⟩ <;> simp [arcOnUpdate, RigState.dollyTo]
  · intro opts s0 st r a hr ha
    rw [compositeOnUpdate_az opts _ st 0 r a hr ha,
      compositeOnUpdate_az opts _ st 1 r a hr ha]
    constructor <;> ring
  · intro opts s0 st r q hr hq
    rw [compositeOnUpdate_pol opts _ st 0 r q hr hq,
      compositeOnUpdate_pol opts _ st 1 r q hr hq]
    constructor <;> ring
  · intro opts s0 st d hd
    rw [compositeOnUpdate_dist opts _ st 0 d hd,
      compositeOnUpdate_dist opts _ st 1 d hd]
    constructor <;> ring
  · intro opts s0 ps h1 h2
    obtain ⟨-, hx, hy⟩ := compositeFold_spec opts (compositeOnStart opts s0).2
      ps 0 (compositeOnStart opts s0).1
    unfold compositeRun
    rw [getLastD_of_getLast ps 0 h1, h2] at hx hy
    constructor
    · rw [hx]
      simp [compositeOnStart]
    · rw [hy]
      simp [compositeOnStart]
  · intro opts s0 s
    obtain ⟨ha0, hp0, hd0, ht0, hf0, hu0⟩ := moveToOnUpdate_components
      (moveToOnStart opts s0).2.1 (moveToOnStart opts s0).2.2 0 s
    obtain ⟨ha1, hp1, hd1, ht1, hf1, hu1⟩ := moveToOnUpdate_components
      (moveToOnStart opts s0).2.1 (moveToOnStart opts s0).2.2 1 s
    refine ⟨by rw [ha0]; ring, by rw [hp0]; ring, by rw [hd0]; ring, ?_,
      by rw [ha1]; ring, by rw [hp1]; ring, by rw [hd1]; ring, ?_, ?_,
      rfl, ?_, ?_⟩
    · rw [ht0]
      simp only [Vec3.mk.injEq]
      refine ⟨by ring, by ring, by ring⟩
    · rw [ht1]
      simp only [Vec3.mk.injEq]
      refine ⟨by ring, by ring, by ring⟩
    · intro hpersp
      rw [hf0, hf1]
      rw [hpersp]
      constructor <;> simp <;> ring
    · intro heq
      constructor
      · rw [hu0, if_neg (by simp [heq])]
      · rw [hu1, if_neg (by simp [heq])]
    · intro hne
      have hr0 : (moveToOnStart opts s0).2.1.roll = 0 := rfl
      constructor
      · rw [hu0, if_pos hne, hr0]
        rw [show (0 : ℝ) + ((moveToOnStart opts s0).2.2.roll - 0) * 0 = 0
          by ring, rotateAboutAxis_zero]
      · rw [hu1, if_pos hne]
        rw [show (moveToOnStart opts s0).2.1.roll +
          ((moveToOnStart opts s0).2.2.roll -
            (moveToOnStart opts s0).2.1.roll) * 1 =
          (moveToOnStart opts s0).2.2.roll by ring]
  · intro cfg s0 s
    have hlen := bezierOnStart_len cfg s0
    refine ⟨?_, ?_, ?_⟩
    · rw [bezierOnUpdate_position, catmullRomPoint_zero _ hlen]
    · rw [bezierOnUpdate_position, catmullRomPoint_one _ hlen]
    · intro hnone
      rw [bezierOnUpdate_position, catmullRomPoint_zero _ hlen,
        bezierOnStart_controlPoints, hnone]
      exact vget_bezierDefault_zero _

/-- Witness for C2: the truck block over the single eased tick `[1]`
accumulates the full `truckX = 5`; the dolly-zoom block at `p = 0` with the
rig's captured FOV `50` rewrites exactly the captured distance; the composite
block with `rotate.polar = 3` lands on the captured polar plus `3` at
`p = 1`; and the moveTo block with roll omitted leaves the up vector
untouched. -/
theorem C2_endpoint_exactness_witness :
    (truckRun { truckX := some 5 } 1 sampleRig [1]).2.truckX =
      (applyStartState sampleRig
        ({ truckX := some 5 } : MotionBlockOptions).startState).truckX +
        truckBlockAmount { truckX := some 5 } 1 ∧
    (dollyZoomOnUpdate {} (dollyZoomOnStart {} sampleRig).2.1
      (dollyZoomOnStart {} sampleRig).2.2 0 sampleRig).distance =
      (dollyZoomOnStart {} sampleRig).2.2 ∧
    (compositeOnUpdate { rotate := some { polar := some 3 } }
      (compositeOnStart { rotate := some { polar := some 3 } } sampleRig).2
      (0, sampleRig) 1).2.polarAngle =
      (compositeOnStart { rotate := some { polar := some 3 } }
        sampleRig).2.polar + 3 ∧
    (moveToOnUpdate (moveToOnStart {} sampleRig).2.1
      (moveToOnStart {} sampleRig).2.2 0 sampleRig).up = sampleRig.up := by
  obtain ⟨-, -, htruck, -, -, -, -, hdz, -, -, hcp, -, -, hmv, -⟩ :=
    C2_endpoint_exactness_amended
  refine ⟨(htruck { truckX := some 5 } 1 sampleRig [1] (by simp) rfl).1,
    ?_, ?_, ?_⟩
  · have h50 : (dollyZoomOnStart ({} : MotionBlockOptions) sampleRig).2.1 = 50 :=
      rfl
    exact (hdz {} sampleRig sampleRig rfl (by rw [h50]; norm_num)
      (by rw [h50]; norm_num)).2.1
  · exact (hcp { rotate := some { polar := some 3 } } sampleRig (0, sampleRig)
      { polar := some 3 } 3 rfl rfl).2
  · obtain ⟨-, -, -, -, -, -, -, -, -, -, heq, -⟩ := hmv {} sampleRig sampleRig
    exact (heq rfl).1

end SparkSplat
